import Mathlib

/-!
Shallow embedding of the Tomasulo teaching simulator (core.py / simulator.py).

Python values that may be `int`, `float` or `None` are modelled as `Option ℚ`
(the programs under verification only ever produce exact dyadic values, so ℚ
is a faithful carrier).  Python exceptions are modelled with `Except PyErr`.
Python object references into the instruction list / reservation-station pool
are modelled as indices (each list element is a distinct object in the source,
so index equality coincides with object identity).
The per-cycle textual log (presentation only, out of scope per the spec) is
not modelled.
-/

set_option allowUnsafeReducibility true in
attribute [semireducible] Rat.add Rat.sub Rat.mul Rat.div Rat.inv

namespace Tomasulo

/-- Python numeric values (`int`/`float`). -/
abbrev Value := ℚ

/-- Python exceptions that the modelled code can raise. -/
inductive PyErr where
  | valueError (msg : String)
  | keyError (key : String)
  deriving Repr, DecidableEq

/-- Computation that may raise a Python exception. -/
abbrev Py (α : Type) := Except PyErr α

/-- Python `dict`: insertion-ordered association list. -/
abbrev Dict (κ α : Type) := List (κ × α)

/-- `d[k]` lookup (first binding wins; keys are unique in practice). -/
def Dict.find? {κ α : Type} [DecidableEq κ] : Dict κ α → κ → Option α
  | [], _ => none
  | (k', v) :: rest, k => if k' = k then some v else Dict.find? rest k

/-- `d[k] = v`: update in place if present, else append (Python dict semantics). -/
def Dict.insert {κ α : Type} [DecidableEq κ] : Dict κ α → κ → α → Dict κ α
  | [], k, v => [(k, v)]
  | (k', v') :: rest, k, v =>
      if k' = k then (k, v) :: rest else (k', v') :: Dict.insert rest k v

/-- `d.get(k, dflt)`. -/
def Dict.getD {κ α : Type} [DecidableEq κ] (d : Dict κ α) (k : κ) (dflt : α) : α :=
  (d.find? k).getD dflt

/-- `int()` truncation toward zero of a numeric value. -/
def truncQ (q : ℚ) : Int := q.num.tdiv q.den

/-! Structural re-implementations of the Python string operations used by the
source (the core library versions are well-founded-recursive and do not
evaluate inside proofs). -/

/-- Python `str.strip()` whitespace class. -/
def isPyWS (c : Char) : Bool :=
  c = ' ' || c = '\t' || c = '\n' || c = '\r' || c = '\x0b' || c = '\x0c'

/-- Python `str.strip()`. -/
def pyStrip (s : String) : String :=
  String.mk (((s.data.dropWhile isPyWS).reverse.dropWhile isPyWS).reverse)

/-- Python `s.startswith(c)` for a one-character prefix. -/
def pyStartsWith (s : String) (c : Char) : Bool :=
  match s.data with
  | [] => false
  | d :: _ => d = c

/-- Python `line.split(sep, 1)` given that `sep` occurs: the part before the
first occurrence and everything after it. -/
def splitFirstChar (sep : Char) : List Char → List Char × List Char
  | [] => ([], [])
  | c :: rest =>
      if c = sep then ([], rest)
      else
        let p := splitFirstChar sep rest
        (c :: p.1, p.2)

/-- Decimal digit-string value, `none` on empty or non-digit input. -/
def digitsToNat? (l : List Char) : Option Nat :=
  l.foldl
    (fun acc c =>
      match acc with
      | none => none
      | some n => if c.isDigit then some (n * 10 + (c.toNat - 48)) else none)
    (match l with | [] => none | _ => some 0)

/-- Python `int(str)` for the sign-digits grammar; raises `ValueError` on
anything else. -/
def pyInt (str : String) : Py Int :=
  let t := (pyStrip str).data
  let (neg, ds) :=
    match t with
    | '-' :: rest => (true, rest)
    | '+' :: rest => (false, rest)
    | _ => (false, t)
  match digitsToNat? ds with
  | some n => .ok (if neg then -(n : Int) else (n : Int))
  | none => .error (.valueError ("invalid literal for int: " ++ str))

/-! ## Instruction (core.py `Instruction`) -/

structure Instruction where
  raw_text : String := ""
  label : Option String := none
  opcode : Option String := none
  rd : Option String := none
  rs : Option String := none
  rt : Option String := none
  imm : Option String := none
  target : Option String := none
  deriving Repr, DecidableEq

instance : Inhabited Instruction := ⟨{}⟩

/-- Separator class of `re.split(r'[ ,()]+', line)`. -/
def isSep (c : Char) : Bool := c = ' ' || c = ',' || c = '(' || c = ')'

/-- Worker for `re.split(r'[ ,()]+', line)`: splits on maximal separator runs,
keeping the (possibly empty) leading and trailing fields.  The accumulator is
`none` while inside a separator run. -/
def reSplitAux : List Char → Option (List Char) → List String
  | [], none => [""]
  | [], some acc => [String.mk acc.reverse]
  | c :: rest, none =>
      if isSep c then reSplitAux rest none else reSplitAux rest (some [c])
  | c :: rest, some acc =>
      if isSep c then String.mk acc.reverse :: reSplitAux rest none
      else reSplitAux rest (some (c :: acc))

/-- `re.split(r'[ ,()]+', line)`. -/
def tokenize (line : String) : List String := reSplitAux line.data (some [])

/-- `Instruction.parse` (run by the constructor): decode one text line.
An unpacking failure (`a, b, c = tokens[1:4]` with too few tokens) raises. -/
def Instruction.parse (raw : String) : Py Instruction := do
  let rt0 := pyStrip raw
  let base : Instruction := { raw_text := rt0 }
  let line := pyStrip (String.mk (rt0.data.takeWhile (fun c => c ≠ '#')))
  if line = "" then return base
  let (labelField, line) :=
    if line.data.contains ':' then
      let p := splitFirstChar ':' line.data
      (some (pyStrip (String.mk p.1)), pyStrip (String.mk p.2))
    else (none, line)
  let i1 : Instruction := { base with label := labelField }
  match tokenize line with
  | [] => return i1
  | t0 :: _ =>
    if t0 = "" then return i1
    let op0 := String.mk (t0.data.map Char.toUpper)
    let op := if op0 = "LW" then "LD" else if op0 = "SW" then "SD" else op0
    let i2 : Instruction := { i1 with opcode := some op }
    let tokens := tokenize line
    if op = "ADD" ∨ op = "SUB" ∨ op = "MUL" ∨ op = "DIV" then
      match tokens with
      | _ :: a :: b :: c :: _ => return { i2 with rd := some a, rs := some b, rt := some c }
      | _ => .error (.valueError "not enough values to unpack")
    else if op = "ADDI" ∨ op = "SUBI" then
      match tokens with
      | _ :: a :: b :: c :: _ => return { i2 with rd := some a, rs := some b, imm := some c }
      | _ => .error (.valueError "not enough values to unpack")
    else if op = "LD" ∨ op = "SD" then
      let rdField := if h : tokens.length > 1 then some (tokens.get ⟨1, h⟩) else none
      if h4 : tokens.length ≥ 4 then
        let t2 := tokens.get ⟨2, by omega⟩
        let t3 := tokens.get ⟨3, by omega⟩
        return { i2 with rd := rdField, imm := some (if t2 = "" then "0" else t2), rs := some t3 }
      else if h3 : tokens.length = 3 then
        return { i2 with rd := rdField, imm := some "0", rs := some (tokens.get ⟨2, by omega⟩) }
      else
        return { i2 with rd := rdField, imm := some "0", rs := none }
    else if op = "BNE" ∨ op = "BEQ" then
      match tokens with
      | _ :: a :: b :: c :: _ => return { i2 with rs := some a, rt := some b, target := some c }
      | _ => .error (.valueError "not enough values to unpack")
    else if op = "BNEZ" then
      match tokens with
      | _ :: a :: b :: _ => return { i2 with rs := some a, target := some b }
      | _ => .error (.valueError "not enough values to unpack")
    else
      -- 'HLT' and unsupported opcodes: no operand fields (opcode stays set)
      return i2

/-! ## Register file (core.py `RegisterFile`)

Register slots hold `Option Value` because Python may store `None` in a
register (e.g. committing an LD whose address never resolved). -/

structure RegisterFile where
  int_regs : Dict String (Option Value)
  fp_regs : Dict String (Option Value)
  int_tags : Dict String (Option Nat)
  fp_tags : Dict String (Option Nat)
  deriving Repr, DecidableEq

def regNames (p : String) : List String := (List.range 32).map (fun i => p ++ toString i)

def RegisterFile.init : RegisterFile :=
  { int_regs := (regNames "R").map (fun n => (n, some (0 : Value)))
    fp_regs := (regNames "F").map (fun n => (n, some (0 : Value)))
    int_tags := (regNames "R").map (fun n => (n, none))
    fp_tags := (regNames "F").map (fun n => (n, none)) }

def RegisterFile.get (rf : RegisterFile) (reg : String) : Py (Option Value) :=
  if pyStartsWith reg 'R' then
    match rf.int_regs.find? reg with
    | some v => .ok v
    | none => .error (.keyError reg)
  else if pyStartsWith reg 'F' then
    match rf.fp_regs.find? reg with
    | some v => .ok v
    | none => .error (.keyError reg)
  else .error (.valueError ("Registro invalido: " ++ reg))

def RegisterFile.set (rf : RegisterFile) (reg : String) (v : Option Value) :
    Py RegisterFile :=
  if pyStartsWith reg 'R' then .ok { rf with int_regs := rf.int_regs.insert reg v }
  else if pyStartsWith reg 'F' then .ok { rf with fp_regs := rf.fp_regs.insert reg v }
  else .error (.valueError ("Registro invalido: " ++ reg))

def RegisterFile.get_tag (rf : RegisterFile) (reg : String) : Py (Option Nat) :=
  if pyStartsWith reg 'R' then
    match rf.int_tags.find? reg with
    | some t => .ok t
    | none => .error (.keyError reg)
  else if pyStartsWith reg 'F' then
    match rf.fp_tags.find? reg with
    | some t => .ok t
    | none => .error (.keyError reg)
  else .error (.valueError ("Registro invalido: " ++ reg))

def RegisterFile.set_tag (rf : RegisterFile) (reg : String) (tag : Option Nat) :
    Py RegisterFile :=
  if pyStartsWith reg 'R' then .ok { rf with int_tags := rf.int_tags.insert reg tag }
  else if pyStartsWith reg 'F' then .ok { rf with fp_tags := rf.fp_tags.insert reg tag }
  else .error (.valueError ("Registro invalido: " ++ reg))

def RegisterFile.clear_tag (rf : RegisterFile) (reg : String) : Py RegisterFile :=
  rf.set_tag reg none

/-! ## Reservation stations, ROB, predictor, functional units -/

structure ReservationStation where
  name : String
  op_type : String
  busy : Bool := false
  op : Option String := none
  Vj : Option Value := none
  Vk : Option Value := none
  Qj : Option Nat := none
  Qk : Option Nat := none
  dest : Option Nat := none
  /-- Index into the loaded program, standing for the Python `Instruction`
  object reference held by the station. -/
  instr : Option Nat := none
  exec_cycles : Nat := 0
  remaining : Nat := 0
  ready : Bool := false
  result : Option Value := none
  rob_idx : Option Nat := none
  deriving Repr, DecidableEq

instance : Inhabited ReservationStation := ⟨{ name := "", op_type := "" }⟩

def ReservationStation.clear (rs : ReservationStation) : ReservationStation :=
  { name := rs.name, op_type := rs.op_type }

structure ROBEntry where
  idx : Nat
  /-- Index into the loaded program (the Python object reference). -/
  instr : Nat
  dest : Option String
  ready : Bool := false
  state : String := "ISSUE"
  result : Option Value := none
  store_value : Option Value := none
  branch_outcome : Option (Bool × Option Nat) := none
  address : Option Int := none
  address_ready : Bool := false
  mispredicted : Bool := false
  deriving Repr, DecidableEq

structure ReorderBuffer where
  entries : List ROBEntry := []
  size : Nat
  next_id : Nat := 0
  deriving Repr, DecidableEq

def ReorderBuffer.is_full (rob : ReorderBuffer) : Bool := rob.entries.length ≥ rob.size

/-- `get_next_id`: returns the fresh stable ID and the buffer with the counter
advanced modulo `2·size`. -/
def ReorderBuffer.get_next_id (rob : ReorderBuffer) : Nat × ReorderBuffer :=
  (rob.next_id, { rob with next_id := (rob.next_id + 1) % (rob.size * 2) })

def ReorderBuffer.remove (rob : ReorderBuffer) : ReorderBuffer :=
  { rob with entries := rob.entries.tail }

/-- `rob[idx]`: scan for the first entry with the given stable ID. -/
def ReorderBuffer.getItem (rob : ReorderBuffer) : Option Nat → Option ROBEntry
  | none => none
  | some i => rob.entries.find? (fun e => e.idx = i)

/-- Mutate (in place) the first entry carrying the given stable ID — the
object `rob[idx]` returns. -/
def modifyFirst (l : List ROBEntry) (i : Nat) (f : ROBEntry → ROBEntry) :
    List ROBEntry :=
  match l with
  | [] => []
  | e :: rest => if e.idx = i then f e :: rest else e :: modifyFirst rest i f

/-- Mutate the most recently appended entry (the object `dispatch` still holds
a reference to). -/
def modifyLast (l : List ROBEntry) (f : ROBEntry → ROBEntry) : List ROBEntry :=
  match l with
  | [] => []
  | [e] => [f e]
  | e :: rest => e :: modifyLast rest f

structure BranchPredictor where
  correct : Nat := 0
  total : Nat := 0
  table_size : Nat := 64
  prediction_table : List Nat := List.replicate 64 1
  deriving Repr, DecidableEq

/-- `_get_index`: hash of the instruction's text modulo the table size.  The
Python `hash` builtin is an engine parameter here (`hashFn`). -/
def BranchPredictor.getIndex (hashFn : String → Nat) (bp : BranchPredictor)
    (raw : String) : Nat := hashFn raw % bp.table_size

def BranchPredictor.predict (hashFn : String → Nat) (bp : BranchPredictor)
    (raw : String) : Bool :=
  bp.prediction_table.getD (bp.getIndex hashFn raw) 0 ≥ 2

def BranchPredictor.update (bp : BranchPredictor) (taken predicted : Bool) :
    BranchPredictor :=
  { bp with total := bp.total + 1,
            correct := if taken = predicted then bp.correct + 1 else bp.correct }

def BranchPredictor.update_prediction_table (hashFn : String → Nat)
    (bp : BranchPredictor) (raw : String) (taken : Bool) : BranchPredictor :=
  let index := bp.getIndex hashFn raw
  let state := bp.prediction_table.getD index 0
  { bp with prediction_table :=
      bp.prediction_table.set index (if taken then min 3 (state + 1) else state - 1) }

structure FunctionalUnit where
  /-- Index of the bound reservation station, if any. -/
  rs : Option Nat := none
  busy : Bool := false
  deriving Repr, DecidableEq

/-! ## Simulator state (simulator.py `TomasuloSimulator`) -/

def initRS : List ReservationStation :=
  ((List.range 3).map (fun i => { name := "ADD" ++ toString i, op_type := "ADD" })) ++
  ((List.range 2).map (fun i => { name := "MUL" ++ toString i, op_type := "MUL" })) ++
  ((List.range 2).map (fun i => { name := "LOAD" ++ toString i, op_type := "LOAD" })) ++
  ((List.range 2).map (fun i => { name := "STORE" ++ toString i, op_type := "STORE" })) ++
  ((List.range 1).map (fun i => { name := "BR" ++ toString i, op_type := "BRANCH" }))

def initFU : List (String × List FunctionalUnit) :=
  [("ADD", List.replicate 2 {}), ("MUL", List.replicate 2 {}),
   ("LOAD", List.replicate 2 {}), ("STORE", List.replicate 2 {}),
   ("BRANCH", List.replicate 1 {})]

def initMemory : Dict Int Value := (List.range 16).map (fun i => ((8 * i : Int), (1 : Value)))

structure SimState where
  issue_width : Nat := 4
  instructions : List Instruction := []
  labels : Dict String Nat := []
  pc : Nat := 0
  finished : Bool := false
  register_file : RegisterFile := RegisterFile.init
  reservation_stations : List ReservationStation := initRS
  rob : ReorderBuffer := { size := 16 }
  branch_predictor : BranchPredictor := {}
  cycle : Nat := 0
  stalls : Nat := 0
  committed : Nat := 0
  memory : Dict Int Value := initMemory
  /-- Indices of stations ready for write-back (`waiting_wb`). -/
  waiting_wb : List Nat := []
  halted : Bool := false
  functional_units : List (String × List FunctionalUnit) := initFU
  deriving Repr, DecidableEq

def initSim : SimState := {}

def getRS (s : SimState) (i : Nat) : ReservationStation :=
  s.reservation_stations.getD i default

def setRS (s : SimState) (i : Nat) (rs : ReservationStation) : SimState :=
  { s with reservation_stations := s.reservation_stations.set i rs }

/-- The `Instruction` object referenced by a stored program index. -/
def instrAt (s : SimState) (k : Nat) : Instruction := s.instructions.getD k default

/-! ## Rename-aware operand fetch (`get_operand`) -/

def get_operand (s : SimState) (reg : Option String) :
    Py (Option Value × Option Nat) := do
  match reg with
  | none => return (none, none)
  | some r =>
    let tag ← s.register_file.get_tag r
    match tag with
    | none =>
        let val ← s.register_file.get r
        return (val, none)
    | some t =>
        match s.rob.getItem (some t) with
        | some e => if e.ready then return (e.result, none) else return (none, some t)
        | none => return (none, some t)

/-! ## RS allocation and latencies -/

def opmap : Dict String String :=
  [("ADD", "ADD"), ("SUB", "ADD"), ("ADDI", "ADD"), ("SUBI", "ADD"),
   ("MUL", "MUL"), ("DIV", "MUL"),
   ("LD", "LOAD"), ("SD", "STORE"),
   ("BNE", "BRANCH"), ("BNEZ", "BRANCH"), ("BEQ", "BRANCH")]

def find_free_rs (s : SimState) (instr : Instruction) : Option Nat :=
  match instr.opcode.bind opmap.find? with
  | none => none
  | some t => s.reservation_stations.findIdx? (fun rs => rs.op_type = t ∧ ¬rs.busy)

def get_latency (op : String) : Nat :=
  if op = "ADD" ∨ op = "SUB" ∨ op = "ADDI" ∨ op = "SUBI" then 1
  else if op = "MUL" ∨ op = "DIV" then 2
  else if op = "LD" then 2
  else if op = "SD" then 1
  else if op = "BNE" ∨ op = "BNEZ" ∨ op = "BRANCH" then 1
  else 1

/-! ## Dispatch (issue) -/

/-- The station content and rename effect computed while issuing one
instruction.  `rs1` is the filled station (before the countdown is started),
`rf` the register file after any renaming, and `addrUpd` the memory address
pre-computed for the freshly appended LD/SD ROB entry when its base register
was available at issue. -/
structure IssueSetup where
  rs1 : ReservationStation
  rf : RegisterFile
  addrUpd : Option Int := none
  deriving Repr, DecidableEq

/-- `if instr.rd: self.register_file.set_tag(instr.rd, rob_idx)`. -/
def renameDest (s : SimState) (instr : Instruction) (rob_idx : Nat) :
    Py RegisterFile :=
  match instr.rd with
  | some rd => if rd ≠ "" then s.register_file.set_tag rd (some rob_idx)
               else .ok s.register_file
  | none => .ok s.register_file

/-- Per-opcode operand capture and renaming of the `dispatch` loop body, in
source order (so that the first failing operation raises, as in Python). -/
def issueFetch (s : SimState) (instr : Instruction)
    (rs0 : ReservationStation) (rob_idx : Nat) : Py IssueSetup := do
  if instr.opcode = some "ADD" ∨ instr.opcode = some "SUB" ∨
     instr.opcode = some "MUL" ∨ instr.opcode = some "DIV" then
    let (vj, qj) ← get_operand s instr.rs
    let (vk, qk) ← get_operand s instr.rt
    let rf ← renameDest s instr rob_idx
    let rs1x := { rs0 with Vj := vj, Qj := qj, Vk := vk, Qk := qk,
                           exec_cycles := get_latency (instr.opcode.getD "") }
    return { rs1 := rs1x, rf := rf }
  else if instr.opcode = some "ADDI" ∨ instr.opcode = some "SUBI" then
    let (vj, qj) ← get_operand s instr.rs
    let vkInt : Int ← match instr.imm with
      | some im => if im = "" then pure 0 else pyInt im
      | none => pure 0
    let rf ← renameDest s instr rob_idx
    let rs1x := { rs0 with Vj := vj, Qj := qj, Vk := some (vkInt : Value),
                           Qk := none,
                           exec_cycles := get_latency (instr.opcode.getD "") }
    return { rs1 := rs1x, rf := rf }
  else if instr.opcode = some "LD" then
    let (base, qbase) ← get_operand s instr.rs
    let offset : Int ← match instr.imm with
      | some im => pyInt im
      | none => pure 0
    let (addrUpd, qjField) :=
      match qbase, base with
      | none, some b => (some (truncQ (b + (offset : Value))), (none : Option Nat))
      | _, _ => ((none : Option Int), qbase)
    let rf ← renameDest s instr rob_idx
    let rs1x := { rs0 with Qj := qjField, Vj := some (offset : Value),
                           exec_cycles := get_latency "LD" }
    return { rs1 := rs1x, rf := rf, addrUpd := addrUpd }
  else if instr.opcode = some "SD" then
    let (base, qbase) ← get_operand s instr.rs
    let offset : Int ← match instr.imm with
      | some im => pyInt im
      | none => pure 0
    let (addrUpd, qjField) :=
      match qbase, base with
      | none, some b => (some (truncQ (b + (offset : Value))), (none : Option Nat))
      | _, _ => ((none : Option Int), qbase)
    let (vk, qk) ← get_operand s instr.rd
    let rs1x := { rs0 with Qj := qjField, Vj := some (offset : Value),
                           Vk := vk, Qk := qk,
                           exec_cycles := get_latency "SD" }
    return { rs1 := rs1x, rf := s.register_file, addrUpd := addrUpd }
  else if instr.opcode = some "BNE" ∨ instr.opcode = some "BNEZ" ∨
          instr.opcode = some "BEQ" then
    let (vj, qj) ← get_operand s instr.rs
    let (vk, qk) ←
      if instr.opcode = some "BNEZ" then
        pure (some (0 : Value), (none : Option Nat))
      else get_operand s instr.rt
    let rs1x := { rs0 with Vj := vj, Qj := qj, Vk := vk, Qk := qk,
                           exec_cycles := get_latency "BRANCH" }
    return { rs1 := rs1x, rf := s.register_file }
  else
    -- unreachable for opcodes that own a station type; kept for faithfulness
    return { rs1 := rs0, rf := s.register_file }

/-- Apply a pre-computed address to the freshly appended ROB entry. -/
def applyAddr (s : SimState) : Option Int → SimState
  | some a =>
      let es := modifyLast s.rob.entries
        (fun e => { e with address := some a, address_ready := true })
      { s with rob := { s.rob with entries := es } }
  | none => s

/-- One body iteration of the `dispatch` while-loop, after the HLT and
structural-hazard checks: allocate ROB entry, fill the station, rename, and
advance the PC. -/
def issueInstr (s : SimState) (instr : Instruction) (i : Nat) : Py SimState := do
  let (rob_idx, rob1) := s.rob.get_next_id
  let entry : ROBEntry :=
    { idx := rob_idx, instr := s.pc,
      dest := if instr.opcode = some "SD" then none else instr.rd }
  let s := { s with rob := { rob1 with entries := rob1.entries ++ [entry] } }
  let rs0 : ReservationStation :=
    { getRS s i with busy := true, op := instr.opcode, instr := some s.pc,
                     rob_idx := some rob_idx, dest := some rob_idx }
  let setup ← issueFetch s instr rs0 rob_idx
  let s := applyAddr s setup.addrUpd
  let s := setRS { s with register_file := setup.rf } i
                 { setup.rs1 with remaining := setup.rs1.exec_cycles }
  return { s with pc := s.pc + 1 }

def dispatchLoop (s : SimState) : Nat → Py SimState
  | 0 => .ok s
  | fuel + 1 =>
    match s.instructions.get? s.pc with
    | none => .ok s
    | some instr =>
      if instr.opcode = some "HLT" then .ok { s with halted := true }
      else
        match find_free_rs s instr with
        | none => .ok { s with stalls := s.stalls + 1 }
        | some i =>
          if s.rob.is_full then .ok { s with stalls := s.stalls + 1 }
          else do
            let s' ← issueInstr s instr i
            dispatchLoop s' fuel

def dispatch (s : SimState) : Py SimState :=
  if s.halted then .ok s else dispatchLoop s s.issue_width

/-! ## Execute -/

/-- Sub-step 1: release FUs whose bound station has finished counting down. -/
def releaseFUs (s : SimState) : SimState :=
  { s with functional_units := s.functional_units.map (fun tl =>
      (tl.1, tl.2.map (fun uf =>
        match uf.rs with
        | some i => if (getRS s i).remaining = 0 then {} else uf
        | none => uf))) }

def isAddrReady (s : SimState) (i : Nat) : Bool :=
  match (getRS s i).rob_idx with
  | none => false
  | some ridx =>
    match s.rob.getItem (some ridx) with
    | some e => e.address_ready
    | none => false

/-- Candidate stations of one op-class (declaration order), as in sub-step 2. -/
def rsCandidates (s : SimState) (t : String) (ufs : List FunctionalUnit) :
    List Nat :=
  let base := (List.range s.reservation_stations.length).filter (fun i =>
    let rs := getRS s i
    rs.op_type = t ∧ rs.busy ∧ rs.remaining > 0 ∧ rs.Qj = none ∧ rs.Qk = none ∧
    ¬ ufs.any (fun uf => uf.rs = some i))
  if t = "LOAD" ∨ t = "STORE" then base.filter (isAddrReady s) else base

/-- Bind each candidate, in order, to the first idle FU of the class. -/
def bindCandidates (ufs : List FunctionalUnit) (cands : List Nat) :
    List FunctionalUnit :=
  cands.foldl (fun ufs i =>
    match ufs.findIdx? (fun uf => ¬uf.busy) with
    | some j => ufs.set j { rs := some i, busy := true }
    | none => ufs) ufs

/-- Sub-step 2: start execution in ready stations. -/
def startExec (s : SimState) : SimState :=
  { s with functional_units := s.functional_units.map (fun tl =>
      (tl.1, bindCandidates tl.2 (rsCandidates s tl.1 tl.2))) }

/-- Sub-step 3: count down stations bound to FUs; finished ones join
`waiting_wb`. -/
def decrStep (s : SimState) : SimState :=
  s.functional_units.foldl (fun s tl =>
    tl.2.foldl (fun s uf =>
      match uf.rs with
      | none => s
      | some i =>
        let rs := getRS s i
        if rs.busy ∧ rs.remaining > 0 then
          let rs' := { rs with remaining := rs.remaining - 1 }
          let s := setRS s i rs'
          if rs'.remaining = 0 then { s with waiting_wb := s.waiting_wb ++ [i] }
          else s
        else s) s) s

def execute (s : SimState) : SimState := decrStep (startExec (releaseFUs s))

/-! ## Write-back -/

/-- Replace (in place) the ROB entry object `rob[idx]` refers to. -/
def robModify (s : SimState) (i : Nat) (f : ROBEntry → ROBEntry) : SimState :=
  { s with rob := { s.rob with entries := modifyFirst s.rob.entries i f } }

/-- CDB broadcast of a numeric `result` under producer tag `tag`: update
waiting stations, then resolve pending LD/SD address computations. -/
def broadcast (s : SimState) (tag : Nat) (v : Value) : SimState :=
  let s := { s with reservation_stations :=
      s.reservation_stations.map (fun (rs : ReservationStation) =>
        let rs := if rs.Qj = some tag then { rs with Vj := some v, Qj := none } else rs
        if rs.Qk = some tag then { rs with Vk := some v, Qk := none } else rs) }
  (s.rob.entries.map (fun e => e.idx)).foldl (fun s eidx =>
    match s.rob.getItem (some eidx) with
    | none => s
    | some entry =>
      if ¬ entry.address_ready then
        match s.reservation_stations.findIdx? (fun rs => rs.rob_idx = some eidx) with
        | none => s
        | some j =>
          let rsm := getRS s j
          match rsm.Qj, rsm.Vj with
          | some q, some w =>
            if q = tag then
              let s := robModify s eidx (fun e =>
                { e with address := some (truncQ (v + w)), address_ready := true })
              setRS s j { rsm with Qj := none }
            else s
          | _, _ => s
      else s) s

/-- The numeric result computed at write-back for an arithmetic, mul/div or
load station (`None` when an operand or the load address is missing; division
by zero yields 0 rather than raising). -/
def wbResult (s : SimState) (rs_done : ReservationStation) (entry : ROBEntry) :
    Option Value :=
  let vj := rs_done.Vj
  let vk := rs_done.Vk
  if rs_done.op = some "ADD" ∨ rs_done.op = some "SUB" ∨
     rs_done.op = some "ADDI" ∨ rs_done.op = some "SUBI" then
    match vj, vk with
    | some a, some b =>
        some (if rs_done.op = some "ADD" ∨ rs_done.op = some "ADDI"
              then a + b else a - b)
    | _, _ => none
  else if rs_done.op = some "MUL" ∨ rs_done.op = some "DIV" then
    match vj, vk with
    | some a, some b =>
        some (if rs_done.op = some "MUL" then a * b
              else if b ≠ 0 then a / b else 0)
    | _, _ => none
  else if rs_done.op = some "LD" then
    match entry.address with
    | some addr => some (s.memory.getD addr 0)
    | none => none
  else none

/-- Process one station from the `waiting_wb` snapshot. -/
def wbStep (hashFn : String → Nat) (s : SimState) (i : Nat) : SimState :=
  let rs_done := getRS s i
  if ¬ rs_done.busy ∨ rs_done.rob_idx = none then s
  else
    match s.rob.getItem rs_done.rob_idx with
    | none =>
        -- the ROB entry was removed by a flush
        let s := setRS s i rs_done.clear
        { s with waiting_wb := s.waiting_wb.erase i }
    | some entry =>
      let vj := rs_done.Vj
      let vk := rs_done.Vk
      if rs_done.op = some "SD" then
        let s := robModify s entry.idx (fun e =>
          { e with store_value := vk, ready := true })
        let s := setRS s i { getRS s i with ready := true }
        { s with waiting_wb := s.waiting_wb.erase i }
      else if rs_done.op = some "BNE" ∨ rs_done.op = some "BNEZ" ∨
              rs_done.op = some "BEQ" then
        let taken : Bool :=
          match vj, vk with
          | some a, some b =>
            if rs_done.op = some "BEQ" then decide (a = b)
            else if rs_done.op = some "BNE" then decide (a ≠ b)
            else decide (a ≠ 0)
          | _, _ => false
        let instr := instrAt s (rs_done.instr.getD 0)
        let predicted := s.branch_predictor.predict hashFn instr.raw_text
        let bp := s.branch_predictor.update taken predicted
        let target_addr : Option Nat :=
          match instr.target with
          | some t => if t ≠ "" then s.labels.find? t else none
          | none => none
        let s := { s with branch_predictor := bp }
        let s := robModify s entry.idx (fun e =>
          { e with branch_outcome := some (taken, target_addr),
                   mispredicted := taken ≠ predicted, ready := true })
        let s := setRS s i { getRS s i with ready := true }
        { s with waiting_wb := s.waiting_wb.erase i }
      else
        let result : Option Value := wbResult s rs_done entry
        let s := robModify s entry.idx (fun e =>
          { e with result := result, ready := true })
        let s :=
          match result with
          | some v => broadcast s entry.idx v
          | none => s
        let s := setRS s i { getRS s i with ready := true }
        { s with waiting_wb := s.waiting_wb.erase i }

def write_back (hashFn : String → Nat) (s : SimState) : SimState :=
  s.waiting_wb.foldl (wbStep hashFn) s

/-! ## Flush and commit -/

def flush_pipeline (s : SimState) (new_pc : Nat) : SimState :=
  { s with
    reservation_stations := s.reservation_stations.map (fun rs => rs.clear)
    register_file :=
      { s.register_file with
        int_tags := s.register_file.int_tags.map (fun p => (p.1, none))
        fp_tags := s.register_file.fp_tags.map (fun p => (p.1, none)) }
    rob := { s.rob with entries := [] }
    waiting_wb := []
    pc := new_pc
    halted := false
    functional_units := s.functional_units.map (fun tl =>
      (tl.1, tl.2.map (fun _ => {}))) }

/-- Clear the first station still bound to the retiring ROB ID. -/
def clearFirstRS (l : List ReservationStation) (i : Nat) :
    List ReservationStation :=
  match l with
  | [] => []
  | rs :: rest =>
      if rs.rob_idx = some i then rs.clear :: rest else rs :: clearFirstRS rest i

/-- The architectural effect of retiring one ready ROB head: the register
write (when the producer tag still matches) or the memory write for SD. -/
def retireEffect (s : SimState) (rob_entry : ROBEntry) (instr : Instruction) :
    Py SimState :=
  if instr.opcode = some "ADD" ∨ instr.opcode = some "SUB" ∨
     instr.opcode = some "MUL" ∨ instr.opcode = some "DIV" ∨
     instr.opcode = some "ADDI" ∨ instr.opcode = some "SUBI" ∨
     instr.opcode = some "LD" then
    match rob_entry.dest with
    | some d =>
      if d ≠ "" then do
        let tag ← s.register_file.get_tag d
        if tag = some rob_entry.idx then do
          let rf ← s.register_file.set d rob_entry.result
          let rf ← rf.clear_tag d
          pure { s with register_file := rf }
        else pure s
      else pure s
    | none => pure s
  else if instr.opcode = some "SD" then
    match rob_entry.address, rob_entry.store_value with
    | some addr, some v => pure { s with memory := s.memory.insert addr v }
    | _, _ => pure s
  else pure s

/-- Per-class retirement action of one ready ROB head: architectural write,
head removal, RS release and the committed counter. -/
def retireHead (s : SimState) (rob_entry : ROBEntry) (instr : Instruction) :
    Py SimState := do
  let s ← retireEffect s rob_entry instr
  let s := { s with rob := s.rob.remove }
  let s := { s with reservation_stations :=
               clearFirstRS s.reservation_stations rob_entry.idx }
  return { s with committed := s.committed + 1 }

def commitLoop (s : SimState) : Nat → Py SimState
  | 0 => .ok s
  | fuel + 1 =>
    match s.rob.entries with
    | [] => .ok s
    | rob_entry :: _ =>
      if ¬ rob_entry.ready then .ok s
      else
        let instr := instrAt s rob_entry.instr
        -- `some` exactly when the mispredicted-with-outcome branch is taken
        -- in the source (a mispredicted entry with no outcome falls through
        -- to normal retirement).
        match (if rob_entry.mispredicted then rob_entry.branch_outcome else none) with
        | some (taken, target_pc) =>
          let return_pc :=
            if rob_entry.instr < s.instructions.length
            then rob_entry.instr + 1 else s.pc
          (match target_pc with
           | some tpc => .ok (flush_pipeline s (if taken then tpc else return_pc))
           | none => .ok s)   -- no flush; `break` still ends commit
        | none => do
          let s ← retireHead s rob_entry instr
          if s.pc ≥ s.instructions.length ∧ s.rob.entries.length = 0 then
            return { s with finished := true }
          else
            commitLoop s fuel

def commit (s : SimState) : Py SimState := commitLoop s s.issue_width

/-! ## Step, load, reset -/

def step (hashFn : String → Nat) (s : SimState) : Py SimState :=
  if s.finished then .ok s
  else do
    let s := { s with cycle := s.cycle + 1 }
    let s ← commit s
    let s := write_back hashFn s
    let s := execute s
    dispatch s

def runSteps (hashFn : String → Nat) : Nat → SimState → Py SimState
  | 0, s => .ok s
  | n + 1, s => step hashFn s >>= runSteps hashFn n

/-- Python's `hash` on strings is salted per process; none of the verified
properties depend on its values, so closed runs use an arbitrary fixed
choice. -/
def hash0 : String → Nat := fun _ => 0

def reset_state (s : SimState) : SimState :=
  { s with
    register_file := RegisterFile.init
    rob := { size := 16 }
    branch_predictor := {}
    reservation_stations := s.reservation_stations.map (fun rs => rs.clear)
    cycle := 0
    stalls := 0
    committed := 0
    waiting_wb := []
    halted := false
    memory := initMemory
    functional_units := s.functional_units.map (fun tl =>
      (tl.1, tl.2.map (fun _ => {}))) }

instance {ε α : Type} [DecidableEq ε] [DecidableEq α] : DecidableEq (Except ε α) :=
  fun a b =>
    match a, b with
    | .ok x, .ok y =>
        if h : x = y then isTrue (by rw [h])
        else isFalse (by intro hc; cases hc; exact h rfl)
    | .error e, .error f =>
        if h : e = f then isTrue (by rw [h])
        else isFalse (by intro hc; cases hc; exact h rfl)
    | .ok _, .error _ => isFalse (by intro hc; cases hc)
    | .error _, .ok _ => isFalse (by intro hc; cases hc)

def load_instructions (s : SimState) (lines : List String) : Py SimState := do
  let acc ← lines.foldlM
    (fun (acc : List Instruction × Dict String Nat) line => do
      let instr ← Instruction.parse line
      let acc :=
        match instr.label with
        | some l => (acc.1, acc.2.insert l acc.1.length)
        | none => acc
      let acc := if instr.opcode.isSome then (acc.1 ++ [instr], acc.2) else acc
      return acc)
    ([], [])
  return reset_state
    { s with instructions := acc.1, labels := acc.2, pc := 0, finished := false }

/-! ## Reference programs (spec §8 scenarios) -/

/-- Scenario 3: memory round-trip. -/
def progMem : List String := ["ADDI R1,R0,7", "SD R1,0(R0)", "LD R2,0(R0)", "HLT"]

/-- Scenario 6: DIV-by-zero. -/
def progDiv : List String := ["ADDI R1,R0,10", "ADDI R2,R0,0", "DIV R3,R1,R2", "HLT"]

/-- Scenario 1: ADDI chain. -/
def progChain : List String := ["ADDI R1,R0,5", "ADDI R2,R1,7", "HLT"]

/-- A taken branch into a halt, used to observe branch write-back. -/
def progBr : List String := ["BEQ R0,R0,L", "L: HLT"]

/-- A short program with no HLT: the only way this engine reaches `finished`. -/
def progNoHlt : List String := ["ADDI R1,R0,1"]

def runProg (p : List String) (n : Nat) : Py SimState :=
  load_instructions initSim p >>= runSteps hash0 n

/-- A hand-built state whose ROB head is a resolved, mispredicted, taken
branch (exercises the commit-triggered flush). -/
def demoFlushState : SimState :=
  { initSim with
    instructions := [{ raw_text := "BNEZ R1,L", opcode := some "BNEZ",
                       rs := some "R1", target := some "L" }],
    rob := { size := 16, entries :=
      [{ idx := 0, instr := 0, dest := none, ready := true,
         mispredicted := true, branch_outcome := some (true, some 0) }] } }

/-- A hand-built state whose ROB head is a ready ADDI writing `R1`, with the
rename map still pointing at it (exercises register-writing commit). -/
def demoCommitState : SimState :=
  { initSim with
    instructions := [{ raw_text := "ADDI R1,R0,7", opcode := some "ADDI",
                       rd := some "R1", rs := some "R0", imm := some "7" }],
    register_file := { RegisterFile.init with
      int_tags := RegisterFile.init.int_tags.insert "R1" (some 0) },
    rob := { size := 16, entries :=
      [{ idx := 0, instr := 0, dest := some "R1", ready := true,
         result := some 7 }] } }

/-! # Lemmas -/

/-! ## Dictionary lemmas -/

lemma Dict.find?_insert_self {κ α : Type} [DecidableEq κ] (d : Dict κ α)
    (k : κ) (v : α) : (d.insert k v).find? k = some v := by
  induction d with
  | nil => simp [Dict.insert, Dict.find?]
  | cons p rest ih =>
      by_cases h : p.1 = k
      · simp [Dict.insert, Dict.find?, h]
      · simp [Dict.insert, Dict.find?, h, ih]

lemma Dict.find?_insert_ne {κ α : Type} [DecidableEq κ] (d : Dict κ α)
    (k k' : κ) (v : α) (h : k ≠ k') :
    (d.insert k v).find? k' = d.find? k' := by
  induction d with
  | nil => simp [Dict.insert, Dict.find?, h]
  | cons p rest ih =>
      by_cases hp : p.1 = k
      · simp [Dict.insert, Dict.find?, hp, h]
      · simp [Dict.insert, Dict.find?, hp, ih]

/-! ## Basic stage lemmas -/

lemma commitLoop_nil {s : SimState} (h : s.rob.entries = []) :
    ∀ fuel, commitLoop s fuel = .ok s := by
  intro fuel
  cases fuel <;> simp [commitLoop, h]

lemma step_of_finished (hashFn : String → Nat) {s : SimState}
    (h : s.finished = true) : step hashFn s = .ok s := by
  simp [step, h]

/-! ## Quiescence

A halted machine with an empty ROB, empty waiting-WB list, free stations and
idle functional units does nothing forever: each further `step` only
increments the cycle counter. -/

def Quiescent (s : SimState) : Prop :=
  s.finished = false ∧ s.halted = true ∧ s.rob.entries = [] ∧ s.waiting_wb = [] ∧
  (∀ rs ∈ s.reservation_stations, rs.busy = false) ∧
  (∀ tl ∈ s.functional_units, ∀ uf ∈ tl.2, uf = ({} : FunctionalUnit))

instance (s : SimState) : Decidable (Quiescent s) := by
  unfold Quiescent; infer_instance

lemma map_id_of_mem {α : Type} {l : List α} {f : α → α}
    (h : ∀ x ∈ l, f x = x) : l.map f = l := by
  induction l with
  | nil => rfl
  | cons a rest ih =>
      simp only [List.map_cons, h a (by simp)]
      rw [ih (fun x hx => h x (by simp [hx]))]

lemma foldl_id_of_mem {α β : Type} {l : List α} {f : β → α → β}
    (h : ∀ b, ∀ x ∈ l, f b x = b) : ∀ b, l.foldl f b = b := by
  induction l with
  | nil => intro b; rfl
  | cons a rest ih =>
      intro b
      rw [List.foldl_cons, h b a (by simp)]
      exact ih (fun b x hx => h b x (by simp [hx])) b

lemma releaseFUs_quiescent {s : SimState}
    (hfu : ∀ tl ∈ s.functional_units, ∀ uf ∈ tl.2, uf = ({} : FunctionalUnit)) :
    releaseFUs s = s := by
  unfold releaseFUs
  have : s.functional_units.map (fun tl =>
      (tl.1, tl.2.map (fun uf =>
        match uf.rs with
        | some i => if (getRS s i).remaining = 0 then {} else uf
        | none => uf))) = s.functional_units := by
    apply map_id_of_mem
    intro tl htl
    have : tl.2.map (fun uf =>
        match uf.rs with
        | some i => if (getRS s i).remaining = 0 then {} else uf
        | none => uf) = tl.2 := by
      apply map_id_of_mem
      intro uf huf
      rw [hfu tl htl uf huf]
    rw [this]
  rw [this]

lemma rsCandidates_quiescent {s : SimState}
    (hrs : ∀ rs ∈ s.reservation_stations, rs.busy = false)
    (t : String) (ufs : List FunctionalUnit) : rsCandidates s t ufs = [] := by
  unfold rsCandidates
  have hbase : (List.range s.reservation_stations.length).filter (fun i =>
      let rs := getRS s i
      rs.op_type = t ∧ rs.busy ∧ rs.remaining > 0 ∧ rs.Qj = none ∧ rs.Qk = none ∧
      ¬ ufs.any (fun uf => uf.rs = some i)) = [] := by
    rw [List.filter_eq_nil_iff]
    intro i hi
    rw [List.mem_range] at hi
    have hmem : getRS s i ∈ s.reservation_stations := by
      unfold getRS
      rw [List.getD_eq_getElem _ _ hi]
      exact List.getElem_mem _
    have := hrs _ hmem
    simp [this]
  rw [hbase]
  split <;> simp

lemma startExec_quiescent {s : SimState}
    (hrs : ∀ rs ∈ s.reservation_stations, rs.busy = false) :
    startExec s = s := by
  unfold startExec
  have : s.functional_units.map (fun tl =>
      (tl.1, bindCandidates tl.2 (rsCandidates s tl.1 tl.2))) =
      s.functional_units := by
    apply map_id_of_mem
    intro tl _
    rw [rsCandidates_quiescent hrs]
    rfl
  rw [this]

lemma decrStep_quiescent {s : SimState}
    (hfu : ∀ tl ∈ s.functional_units, ∀ uf ∈ tl.2, uf = ({} : FunctionalUnit)) :
    decrStep s = s := by
  unfold decrStep
  apply foldl_id_of_mem
  intro b tl htl
  apply foldl_id_of_mem
  intro b' uf huf
  rw [hfu tl htl uf huf]

lemma execute_quiescent {s : SimState}
    (hrs : ∀ rs ∈ s.reservation_stations, rs.busy = false)
    (hfu : ∀ tl ∈ s.functional_units, ∀ uf ∈ tl.2, uf = ({} : FunctionalUnit)) :
    execute s = s := by
  unfold execute
  rw [releaseFUs_quiescent hfu, startExec_quiescent hrs, decrStep_quiescent hfu]

lemma stages_quiescent (hashFn : String → Nat) (t : SimState)
    (hh : t.halted = true) (hrob : t.rob.entries = []) (hwb : t.waiting_wb = [])
    (hrs : ∀ rs ∈ t.reservation_stations, rs.busy = false)
    (hfu : ∀ tl ∈ t.functional_units, ∀ uf ∈ tl.2, uf = ({} : FunctionalUnit)) :
    (do
      let t ← commit t
      let t := write_back hashFn t
      let t := execute t
      dispatch t) = .ok t := by
  rw [show (commit t : Py SimState) = .ok t from commitLoop_nil hrob _]
  show (dispatch (execute (write_back hashFn t)) : Py SimState) = .ok t
  have hw : write_back hashFn t = t := by
    unfold write_back; rw [hwb]; rfl
  rw [hw, execute_quiescent hrs hfu]
  simp [dispatch, hh]

lemma step_quiescent (hashFn : String → Nat) {s : SimState} (hq : Quiescent s) :
    step hashFn s = .ok { s with cycle := s.cycle + 1 } := by
  obtain ⟨hf, hh, hrob, hwb, hrs, hfu⟩ := hq
  unfold step
  rw [if_neg (by rw [hf]; exact Bool.false_ne_true)]
  exact stages_quiescent hashFn { s with cycle := s.cycle + 1 } hh hrob hwb hrs hfu

lemma quiescent_tick {s : SimState} (hq : Quiescent s) :
    Quiescent { s with cycle := s.cycle + 1 } := hq

lemma runSteps_quiescent (hashFn : String → Nat) {s : SimState}
    (hq : Quiescent s) :
    ∀ k, runSteps hashFn k s = .ok { s with cycle := s.cycle + k } := by
  intro k
  induction k generalizing s with
  | zero => simp [runSteps]
  | succ n ih =>
      rw [runSteps, step_quiescent hashFn hq]
      show runSteps hashFn n { s with cycle := s.cycle + 1 } =
        .ok { s with cycle := s.cycle + (n + 1) }
      rw [ih (quiescent_tick hq)]
      show Except.ok ({ s with cycle := s.cycle + 1 + n } : SimState) =
        .ok { s with cycle := s.cycle + (n + 1) }
      rw [show s.cycle + 1 + n = s.cycle + (n + 1) by omega]

set_option maxRecDepth 100000

/-! # Claim theorems -/

/-- C3 (counterexample): the memory round-trip program reaches its quiescent
final state after 8 cycles with `R2 = 1`, and `R2` stays `1` after every
further sequence of steps — it never becomes `7` as claimed. -/
theorem claim3_roundtrip_r2_is_one : ∃ s, runProg progMem 8 = .ok s ∧ Quiescent s ∧
    s.register_file.int_regs.find? "R2" = some (some 1) ∧
    ∀ k s', runSteps hash0 k s = .ok s' →
      s'.register_file.int_regs.find? "R2" = some (some 1) := by
  have hfacts : (runProg progMem 8).map (fun s =>
      (decide (Quiescent s), s.register_file.int_regs.find? "R2")) =
      .ok (true, some (some 1)) := by decide
  cases hrun : runProg progMem 8 with
  | error e => rw [hrun] at hfacts; simp [Except.map] at hfacts
  | ok s =>
      rw [hrun] at hfacts
      simp only [Except.map] at hfacts
      injection hfacts with h
      injection h with h1 h2
      have hq : Quiescent s := of_decide_eq_true h1
      refine ⟨s, rfl, hq, h2, fun k s' hs' => ?_⟩
      rw [runSteps_quiescent hash0 hq k] at hs'
      injection hs' with h'
      rw [← h']
      exact h2

/-- C3 (amended): running `ADDI R1,R0,7 / SD R1,0(R0) / LD R2,0(R0) / HLT`
from the reference initial state terminates (reaches a quiescent state in
which each further step only ticks the cycle counter) with `memory[0] = 7`,
`R1 = 7` but `R2 = 1`: the load reads memory at write-back, before the store
commits, so it returns the pre-store value `1.0`. -/
theorem claim3_memory_roundtrip : ∃ s, runProg progMem 8 = .ok s ∧
    s.memory.find? 0 = some 7 ∧
    s.register_file.int_regs.find? "R1" = some (some 7) ∧
    s.register_file.int_regs.find? "R2" = some (some 1) ∧
    s.halted = true ∧ s.rob.entries = [] ∧
    ∀ k, runSteps hash0 k s = .ok { s with cycle := s.cycle + k } := by
  have hfacts : (runProg progMem 8).map (fun s =>
      (decide (Quiescent s), s.memory.find? 0,
       s.register_file.int_regs.find? "R1",
       s.register_file.int_regs.find? "R2")) =
      .ok (true, some 7, some (some 7), some (some 1)) := by decide
  cases hrun : runProg progMem 8 with
  | error e => rw [hrun] at hfacts; simp [Except.map] at hfacts
  | ok s =>
      rw [hrun] at hfacts
      simp only [Except.map] at hfacts
      injection hfacts with h
      injection h with h1 h'
      injection h' with h2 h''
      injection h'' with h3 h4
      have hq : Quiescent s := of_decide_eq_true h1
      exact ⟨s, rfl, h2, h3, h4, hq.2.1, hq.2.2.1,
        fun k => runSteps_quiescent hash0 hq k⟩

/-- C6: a DIV whose divisor operand `Vk` is zero produces result 0 at
write-back (the embedding of `write_back` is a total function — no exception
path exists), and the DIV-by-zero program terminates with `R3 = 0`. -/
theorem claim6_div_by_zero :
    (∀ (s : SimState) (rs_done : ReservationStation) (entry : ROBEntry)
       (a : Value),
      rs_done.op = some "DIV" → rs_done.Vj = some a → rs_done.Vk = some 0 →
      wbResult s rs_done entry = some 0) ∧
    (∃ s, runProg progDiv 8 = .ok s ∧
      s.register_file.int_regs.find? "R3" = some (some 0) ∧
      ∀ k, runSteps hash0 k s = .ok { s with cycle := s.cycle + k }) := by
  constructor
  · intro s rs_done entry a hop hvj hvk
    simp [wbResult, hop, hvj, hvk]
  · have hfacts : (runProg progDiv 8).map (fun s =>
        (decide (Quiescent s), s.register_file.int_regs.find? "R3")) =
        .ok (true, some (some 0)) := by decide
    cases hrun : runProg progDiv 8 with
    | error e => rw [hrun] at hfacts; simp [Except.map] at hfacts
    | ok s =>
        rw [hrun] at hfacts
        simp only [Except.map] at hfacts
        injection hfacts with h
        injection h with h1 h2
        exact ⟨s, rfl, h2, fun k =>
          runSteps_quiescent hash0 (of_decide_eq_true h1) k⟩

/-- C6 witness: the DIV rule applied at a concrete station with `Vj = 10`
and `Vk = 0`. -/
theorem claim6_div_by_zero_witness :
    wbResult initSim
      { name := "MUL0", op_type := "MUL", op := some "DIV",
        Vj := some 10, Vk := some 0 }
      { idx := 0, instr := 0, dest := none } = some 0 :=
  claim6_div_by_zero.1 initSim _ _ 10 rfl rfl rfl

/-- C1 (code evaluated at the failing input): after the taken `BEQ R0,R0,L`
resolves at write-back (cycle 3), the outcome `(taken, target 1)` is recorded
in the ROB entry, `mispredicted` is set (prediction was not-taken), and the
accuracy counters are updated (`total = 1`, `correct = 0`) — but the 2-bit
saturating table is left at its initial value `1` everywhere:
`update_prediction_table` is never invoked by the engine. -/
theorem claim1_table_never_trained : ∃ s, runProg progBr 3 = .ok s ∧
    s.rob.entries.map (fun e => (e.ready, e.mispredicted, e.branch_outcome)) =
      [(true, true, some (true, some 1))] ∧
    s.branch_predictor.total = 1 ∧
    s.branch_predictor.correct = 0 ∧
    s.branch_predictor.prediction_table = List.replicate 64 1 := by
  have hfacts : (runProg progBr 3).map (fun s => decide
      (s.rob.entries.map (fun e => (e.ready, e.mispredicted, e.branch_outcome)) =
        [(true, true, some (true, some 1))] ∧
       s.branch_predictor.total = 1 ∧ s.branch_predictor.correct = 0 ∧
       s.branch_predictor.prediction_table = List.replicate 64 1)) =
      .ok true := by decide
  cases hrun : runProg progBr 3 with
  | error e => rw [hrun] at hfacts; simp [Except.map] at hfacts
  | ok s =>
      rw [hrun] at hfacts
      simp only [Except.map] at hfacts
      injection hfacts with h
      obtain ⟨h1, h2, h3, h4⟩ := of_decide_eq_true h
      exact ⟨s, rfl, h1, h2, h3, h4⟩

/-- C8 (counterexample): a line with an unrecognized opcode (`XYZ R1`) is NOT
discarded — it is loaded as one instruction; and a malformed line with a
recognized opcode (`ADD R1,R2`, too few operands) raises an unpacking error to
the caller instead of being dropped silently. -/
theorem claim8_unknown_line_not_dropped :
    (load_instructions initSim ["XYZ R1"]).map (fun s => s.instructions.length) =
      .ok 1 ∧
    load_instructions initSim ["ADD R1,R2"] =
      .error (.valueError "not enough values to unpack") := by
  exact ⟨by decide, by decide⟩

/-- C9 (counterexample): `set` on the out-of-range name `R32` does not fail —
it silently extends the integer bank with a new key — and `get` on `R32`
fails with a `KeyError`, not the `InvalidRegister` (`ValueError`) condition. -/
theorem claim9_r32_set_succeeds :
    (RegisterFile.init.set "R32" (some 5)).map
      (fun rf => rf.int_regs.find? "R32") = .ok (some (some 5)) ∧
    RegisterFile.init.get "R32" = .error (.keyError "R32") := by
  exact ⟨by decide, by decide⟩

/-- A line whose stripped text is empty parses to an instruction with no
opcode (and no label). -/
lemma parse_blank {raw : String} (h : pyStrip raw = "") :
    Instruction.parse raw = .ok { raw_text := "" } := by
  unfold Instruction.parse
  rw [h]
  rfl

/-- C8 (amended): a blank (whitespace-only) line parses to an instruction
with no opcode and is dropped silently at load; a line with an unrecognized
opcode is NOT dropped — it is loaded carrying that opcode (and later stalls
dispatch forever); a line with a recognized opcode but too few operand tokens
raises an unpacking error to the caller at load time. -/
theorem claim8_load_error_behaviour :
    (∀ (s : SimState) (line : String), pyStrip line = "" →
      (load_instructions s [line]).map (fun t => t.instructions) = .ok []) ∧
    (∀ s : SimState, (load_instructions s ["XYZ R1"]).map
        (fun t => t.instructions.map (fun i => i.opcode)) = .ok [some "XYZ"]) ∧
    (load_instructions initSim ["ADD R1,R2"]).isOk = false := by
  refine ⟨?_, ?_, by decide⟩
  · intro s line h
    simp only [load_instructions, List.foldlM, parse_blank h]
    rfl
  · intro s
    rfl

/-- C8 witness: the dropped-blank-line rule at `" "` and the
unknown-opcode-kept rule at `"XYZ R1"`, both from the reference initial
state. -/
theorem claim8_load_error_behaviour_witness :
    (load_instructions initSim [" "]).map (fun t => t.instructions) = .ok [] ∧
    (load_instructions initSim ["XYZ R1"]).map
      (fun t => t.instructions.map (fun i => i.opcode)) = .ok [some "XYZ"] :=
  ⟨claim8_load_error_behaviour.1 initSim " " (by decide),
   claim8_load_error_behaviour.2.1 initSim⟩

/-- C9 (amended): a register name that starts with neither `R` nor `F` makes
`get`, `set`, `get_tag` and `set_tag` fail with the `InvalidRegister`
(`ValueError`) condition, leaving the file unchanged; but a name starting
with `R` that is not a key of the integer bank (e.g. `R32`) makes `get` fail
with a `KeyError`, while `set` succeeds and extends the bank with the new
name. -/
theorem claim9_invalid_register :
    (∀ (rf : RegisterFile) (reg : String) (v : Option Value) (tag : Option Nat),
      pyStartsWith reg 'R' = false → pyStartsWith reg 'F' = false →
      rf.get reg = .error (.valueError ("Registro invalido: " ++ reg)) ∧
      rf.set reg v = .error (.valueError ("Registro invalido: " ++ reg)) ∧
      rf.get_tag reg = .error (.valueError ("Registro invalido: " ++ reg)) ∧
      rf.set_tag reg tag = .error (.valueError ("Registro invalido: " ++ reg))) ∧
    (∀ (rf : RegisterFile) (reg : String) (v : Option Value),
      pyStartsWith reg 'R' = true → rf.int_regs.find? reg = none →
      rf.get reg = .error (.keyError reg) ∧
      ∃ rf', rf.set reg v = .ok rf' ∧ rf'.int_regs.find? reg = some v) := by
  constructor
  · intro rf reg v tag h1 h2
    refine ⟨?_, ?_, ?_, ?_⟩ <;>
      simp [RegisterFile.get, RegisterFile.set, RegisterFile.get_tag,
            RegisterFile.set_tag, h1, h2]
  · intro rf reg v h1 hnone
    constructor
    · simp [RegisterFile.get, h1, hnone]
    · refine ⟨{ rf with int_regs := rf.int_regs.insert reg v }, ?_, ?_⟩
      · simp [RegisterFile.set, h1]
      · exact Dict.find?_insert_self _ _ _

lemma ok_bind {α β : Type} (a : α) (f : α → Py β) :
    (Except.ok a >>= f : Py β) = f a := rfl

lemma get_tag_ok_cases {rf : RegisterFile} {reg : String} {t : Option Nat}
    (h : rf.get_tag reg = .ok t) :
    pyStartsWith reg 'R' = true ∨
    (pyStartsWith reg 'R' = false ∧ pyStartsWith reg 'F' = true) := by
  by_cases hr : pyStartsWith reg 'R' = true
  · exact Or.inl hr
  · right
    refine ⟨by simpa using hr, ?_⟩
    by_cases hf : pyStartsWith reg 'F' = true
    · exact hf
    · exfalso
      simp only [RegisterFile.get_tag, hr, hf] at h
      simp at h

/-- Writing a register and clearing its tag (the matched-producer commit
path) succeeds whenever `get_tag` succeeded, and afterwards the register
reads back the written value with an empty tag. -/
lemma commit_regwrite {rf : RegisterFile} {reg : String} {t : Option Nat}
    (v : Option Value) (h : rf.get_tag reg = .ok t) :
    ∃ rf1 rf2, rf.set reg v = .ok rf1 ∧ rf1.clear_tag reg = .ok rf2 ∧
      rf2.get reg = .ok v ∧ rf2.get_tag reg = .ok none := by
  rcases get_tag_ok_cases h with hr | ⟨hr, hf⟩
  · refine ⟨{ rf with int_regs := rf.int_regs.insert reg v },
           { rf with int_regs := rf.int_regs.insert reg v,
                     int_tags := rf.int_tags.insert reg none }, ?_, ?_, ?_, ?_⟩
    · simp [RegisterFile.set, hr]
    · simp [RegisterFile.clear_tag, RegisterFile.set_tag, hr]
    · simp [RegisterFile.get, hr, Dict.find?_insert_self]
    · simp [RegisterFile.get_tag, hr, Dict.find?_insert_self]
  · refine ⟨{ rf with fp_regs := rf.fp_regs.insert reg v },
           { rf with fp_regs := rf.fp_regs.insert reg v,
                     fp_tags := rf.fp_tags.insert reg none }, ?_, ?_, ?_, ?_⟩
    · simp [RegisterFile.set, hr, hf]
    · simp [RegisterFile.clear_tag, RegisterFile.set_tag, hr, hf]
    · simp [RegisterFile.get, hr, hf, Dict.find?_insert_self]
    · simp [RegisterFile.get_tag, hr, hf, Dict.find?_insert_self]

/-- After retiring the only ROB entry, the remaining commit loop either sets
`finished` (end of program) or idles on the empty ROB; the result differs at
most in the `finished` flag. -/
lemma commitLoop_after_retire {s : SimState} {entry : ROBEntry}
    {s2 : SimState} (w : Nat)
    (hret : retireHead s entry (instrAt s entry.instr) = .ok s2)
    (hent : s.rob.entries = [entry])
    (hrdy : entry.ready = true)
    (hmis : entry.mispredicted = false)
    (hrem : s2.rob.entries = []) :
    commitLoop s (w + 1) = .ok s2 ∨
    commitLoop s (w + 1) = .ok { s2 with finished := true } := by
  have hstep : commitLoop s (w + 1) =
      (do
        let t ← retireHead s entry (instrAt s entry.instr)
        if t.pc ≥ t.instructions.length ∧ t.rob.entries.length = 0 then
          return { t with finished := true }
        else
          commitLoop t w) := by
    simp [commitLoop, hent, hrdy, hmis]
  rw [hstep, hret]
  simp only [ok_bind]
  by_cases hc : s2.pc ≥ s2.instructions.length ∧ s2.rob.entries.length = 0
  · rw [if_pos hc]
    right
    rfl
  · rw [if_neg hc]
    left
    exact commitLoop_nil hrem w

/-- C2: committing a resolved, mispredicted branch (with a known target)
flushes the pipeline: every reservation station is free, every producer tag
is empty, the ROB and the waiting-WB list are empty, every functional unit is
idle, the halted flag is cleared, and the PC is the resolved target when the
branch was taken, else the branch's sequential successor. -/
theorem claim2_flush_postconditions : ∀ (s : SimState) (entry : ROBEntry)
    (rest : List ROBEntry) (taken : Bool) (target w : Nat),
    s.rob.entries = entry :: rest →
    entry.ready = true →
    entry.mispredicted = true →
    entry.branch_outcome = some (taken, some target) →
    s.issue_width = w + 1 →
    entry.instr < s.instructions.length →
    ∃ s', commit s = .ok s' ∧
      (∀ rs ∈ s'.reservation_stations, rs.busy = false) ∧
      (∀ p ∈ s'.register_file.int_tags, p.2 = none) ∧
      (∀ p ∈ s'.register_file.fp_tags, p.2 = none) ∧
      s'.rob.entries = [] ∧
      s'.waiting_wb = [] ∧
      (∀ tl ∈ s'.functional_units, ∀ uf ∈ tl.2, uf.busy = false ∧ uf.rs = none) ∧
      s'.halted = false ∧
      s'.pc = (if taken then target else entry.instr + 1) := by
  intro s entry rest taken target w hent hrdy hmis hout hw hlt
  have hcommit : commit s =
      .ok (flush_pipeline s (if taken then target else entry.instr + 1)) := by
    unfold commit
    rw [hw]
    simp only [commitLoop, hent, hrdy, hmis, hout, not_true, if_true,
               if_pos hlt, if_false]
  refine ⟨_, hcommit, ?_, ?_, ?_, ?_, ?_, ?_, ?_, ?_⟩
  · intro rs hrs
    simp only [flush_pipeline, List.mem_map] at hrs
    obtain ⟨x, _, hx⟩ := hrs
    rw [← hx]
    rfl
  · intro p hp
    simp only [flush_pipeline, List.mem_map] at hp
    obtain ⟨x, _, hx⟩ := hp
    rw [← hx]
  · intro p hp
    simp only [flush_pipeline, List.mem_map] at hp
    obtain ⟨x, _, hx⟩ := hp
    rw [← hx]
  · rfl
  · rfl
  · intro tl htl uf huf
    simp only [flush_pipeline, List.mem_map] at htl
    obtain ⟨x, _, hx⟩ := htl
    rw [← hx] at huf
    simp only [List.mem_map] at huf
    obtain ⟨y, _, hy⟩ := huf
    rw [← hy]
    exact ⟨rfl, rfl⟩
  · rfl
  · rfl

/-- C2 witness: the flush postconditions at a concrete state whose ROB head
is a mispredicted taken branch with target index 0. -/
theorem claim2_flush_postconditions_witness :
    ∃ s', commit demoFlushState = .ok s' ∧ s'.rob.entries = [] ∧
      s'.waiting_wb = [] ∧ s'.halted = false ∧ s'.pc = 0 := by
  obtain ⟨s', hc, _, _, _, hrob, hwb, _, hh, hpc⟩ :=
    claim2_flush_postconditions demoFlushState
      { idx := 0, instr := 0, dest := none, ready := true,
        mispredicted := true, branch_outcome := some (true, some 0) }
      [] true 0 3 rfl rfl rfl rfl rfl (by decide)
  exact ⟨s', hc, hrob, hwb, hh, by rw [hpc]; rfl⟩

/-- C4: committing a register-writing instruction (arith, arith-immediate or
LD) with destination `d`: if `d`'s producer tag still equals the entry's ID,
the result is written to `d` and the tag cleared; if the tag differs, the
register file is left entirely unchanged; in both cases the committed
counter is incremented by one. -/
theorem claim4_commit_register_write : ∀ (s : SimState) (entry : ROBEntry)
    (d op : String) (tg : Option Nat) (w : Nat),
    s.rob.entries = [entry] →
    entry.ready = true →
    entry.mispredicted = false →
    (instrAt s entry.instr).opcode = some op →
    (op = "ADD" ∨ op = "SUB" ∨ op = "MUL" ∨ op = "DIV" ∨
     op = "ADDI" ∨ op = "SUBI" ∨ op = "LD") →
    entry.dest = some d →
    d ≠ "" →
    s.register_file.get_tag d = .ok tg →
    s.issue_width = w + 1 →
    ∃ s', commit s = .ok s' ∧
      s'.committed = s.committed + 1 ∧
      (tg = some entry.idx →
        s'.register_file.get_tag d = .ok none ∧
        s'.register_file.get d = .ok entry.result) ∧
      (tg ≠ some entry.idx → s'.register_file = s.register_file) := by
  intro s entry d op tg w hent hrdy hmis hopc hop hdest hdne hgt hw
  have hcond : (instrAt s entry.instr).opcode = some "ADD" ∨
      (instrAt s entry.instr).opcode = some "SUB" ∨
      (instrAt s entry.instr).opcode = some "MUL" ∨
      (instrAt s entry.instr).opcode = some "DIV" ∨
      (instrAt s entry.instr).opcode = some "ADDI" ∨
      (instrAt s entry.instr).opcode = some "SUBI" ∨
      (instrAt s entry.instr).opcode = some "LD" := by
    rw [hopc]
    rcases hop with h | h | h | h | h | h | h <;> simp [h]
  have hcommit : commit s = commitLoop s (w + 1) := by rw [commit, hw]
  by_cases htg : tg = some entry.idx
  · obtain ⟨rf1, rf2, hset, hclear, hget2, hgt2⟩ :=
      commit_regwrite entry.result hgt
    have heff : retireEffect s entry (instrAt s entry.instr) =
        .ok { s with register_file := rf2 } := by
      unfold retireEffect
      simp only [if_pos hcond, hdest, if_pos hdne, hgt, ok_bind,
                 if_pos htg, hset, hclear]
      rfl
    have hret : retireHead s entry (instrAt s entry.instr) =
        .ok { s with register_file := rf2,
                     rob := s.rob.remove,
                     reservation_stations :=
                       clearFirstRS s.reservation_stations entry.idx,
                     committed := s.committed + 1 } := by
      unfold retireHead
      rw [heff]
      rfl
    have hrem2 : ({ s with register_file := rf2, rob := s.rob.remove, reservation_stations := clearFirstRS s.reservation_stations entry.idx, committed := s.committed + 1 } : SimState).rob.entries = [] := by
      simp [ReorderBuffer.remove, hent]
    rcases commitLoop_after_retire w hret hent hrdy hmis hrem2 with hcl | hcl <;>
      rw [hcommit] <;> rw [hcl]
    · exact ⟨_, rfl, rfl, fun _ => ⟨hgt2, hget2⟩, fun hne => absurd htg hne⟩
    · exact ⟨_, rfl, rfl, fun _ => ⟨hgt2, hget2⟩, fun hne => absurd htg hne⟩
  · have heff : retireEffect s entry (instrAt s entry.instr) = .ok s := by
      unfold retireEffect
      simp only [if_pos hcond, hdest, if_pos hdne, hgt, ok_bind, if_neg htg]
      rfl
    have hret : retireHead s entry (instrAt s entry.instr) =
        .ok { s with rob := s.rob.remove,
                     reservation_stations :=
                       clearFirstRS s.reservation_stations entry.idx,
                     committed := s.committed + 1 } := by
      unfold retireHead
      rw [heff]
      rfl
    have hrem2 : ({ s with rob := s.rob.remove, reservation_stations := clearFirstRS s.reservation_stations entry.idx, committed := s.committed + 1 } : SimState).rob.entries = [] := by
      simp [ReorderBuffer.remove, hent]
    rcases commitLoop_after_retire w hret hent hrdy hmis hrem2 with hcl | hcl <;>
      rw [hcommit] <;> rw [hcl]
    · exact ⟨_, rfl, rfl, fun heq => absurd heq htg, fun _ => rfl⟩
    · exact ⟨_, rfl, rfl, fun heq => absurd heq htg, fun _ => rfl⟩

/-- C4 witness: committing a ready ADDI whose destination `R1` is still
renamed to it writes 7 into `R1`, clears the tag and bumps the committed
counter. -/
theorem claim4_commit_register_write_witness :
    ∃ s', commit demoCommitState = .ok s' ∧
      s'.committed = demoCommitState.committed + 1 ∧
      s'.register_file.get_tag "R1" = .ok none ∧
      s'.register_file.get "R1" = .ok (some 7) := by
  obtain ⟨s', hc, hcom, hmatch, _⟩ :=
    claim4_commit_register_write demoCommitState
      { idx := 0, instr := 0, dest := some "R1", ready := true,
        result := some 7 }
      "R1" "ADDI" (some 0) 3 rfl rfl rfl (by decide) (by decide) rfl
      (by decide) (by decide) rfl
  obtain ⟨h1, h2⟩ := hmatch rfl
  exact ⟨s', hc, hcom, h1, h2⟩

/-- C10: dispatching an HLT only sets the halted flag — the dispatch result
is the input state with `halted := true` and nothing else changed (no RS or
ROB allocation, PC not advanced); and in the ADDI-chain run the committed
counter ends at 2 out of 3 loaded instructions (HLT is never committed). -/
theorem claim10_hlt_only_halts :
    (∀ (s : SimState) (instr : Instruction) (w : Nat),
      s.halted = false →
      s.instructions.get? s.pc = some instr →
      instr.opcode = some "HLT" →
      s.issue_width = w + 1 →
      dispatch s = .ok { s with halted := true }) ∧
    (∃ s, runProg progChain 6 = .ok s ∧ s.committed = 2 ∧
      s.instructions.length = 3 ∧ s.pc = 2 ∧ s.halted = true ∧
      s.rob.entries = [] ∧
      ∀ k, runSteps hash0 k s = .ok { s with cycle := s.cycle + k }) := by
  constructor
  · intro s instr w hh hget hopc hw
    unfold dispatch
    rw [if_neg (by rw [hh]; exact Bool.false_ne_true), hw]
    simp only [dispatchLoop, hget, hopc, if_pos]
    rw [hw]
  · have hfacts : (runProg progChain 6).map (fun s => decide
        (Quiescent s ∧ s.committed = 2 ∧ s.instructions.length = 3 ∧
         s.pc = 2)) = .ok true := by decide
    cases hrun : runProg progChain 6 with
    | error e => rw [hrun] at hfacts; simp [Except.map] at hfacts
    | ok s =>
        rw [hrun] at hfacts
        simp only [Except.map] at hfacts
        injection hfacts with h
        obtain ⟨hq, hcom, hlen, hpc⟩ := of_decide_eq_true h
        exact ⟨s, rfl, hcom, hlen, hpc, hq.2.1, hq.2.2.1,
          fun k => runSteps_quiescent hash0 hq k⟩

/-- C10 witness: dispatching the single-instruction program `HLT` from the
initial state just sets `halted`. -/
theorem claim10_hlt_only_halts_witness :
    dispatch { initSim with
      instructions := [{ raw_text := "HLT", opcode := some "HLT" }] } =
    .ok { initSim with
      instructions := [{ raw_text := "HLT", opcode := some "HLT" }],
      halted := true } :=
  claim10_hlt_only_halts.1 _ _ 3 rfl rfl rfl rfl

/-! ## Frame lemmas: which fields each pipeline stage can touch -/

lemma bind_ok_elim {α β : Type} {x : Py α} {f : α → Py β} {b : β}
    (h : (x >>= f) = .ok b) : ∃ a, x = .ok a ∧ f a = .ok b := by
  cases x with
  | error e => exact absurd h (by simp [Bind.bind, Except.bind])
  | ok a => exact ⟨a, rfl, h⟩

/-- The engine fields that write-back and execute never touch. -/
def frame6 (s : SimState) : Nat × Bool × Nat × Nat × List Instruction × Nat :=
  (s.pc, s.finished, s.committed, s.cycle, s.instructions, s.rob.entries.length)

lemma modifyFirst_length (l : List ROBEntry) (i : Nat) (f : ROBEntry → ROBEntry) :
    (modifyFirst l i f).length = l.length := by
  induction l with
  | nil => rfl
  | cons e rest ih =>
      by_cases h : e.idx = i <;> simp [modifyFirst, h, ih]

lemma frame6_foldl {α : Type} (f : SimState → α → SimState)
    (h : ∀ s a, frame6 (f s a) = frame6 s) :
    ∀ (l : List α) (s : SimState), frame6 (l.foldl f s) = frame6 s := by
  intro l
  induction l with
  | nil => intro s; rfl
  | cons a rest ih => intro s; rw [List.foldl_cons, ih, h]

lemma frame6_broadcast (s : SimState) (tag : Nat) (v : Value) :
    frame6 (broadcast s tag v) = frame6 s := by
  unfold broadcast
  rw [frame6_foldl]
  · rfl
  · intro s' eidx
    cases hit : s'.rob.getItem (some eidx) with
    | none => simp
    | some entry =>
        simp only [hit]
        split
        · cases hidx : s'.reservation_stations.findIdx?
              (fun rs => rs.rob_idx = some eidx) with
          | none => simp
          | some j =>
              simp only [hidx]
              split
              · split
                · simp [frame6, robModify, setRS, modifyFirst_length]
                · rfl
              · rfl
        · rfl

lemma broadcast_pc (s : SimState) (tag : Nat) (v : Value) :
    (broadcast s tag v).pc = s.pc :=
  congrArg (fun p => p.1) (frame6_broadcast s tag v)

lemma broadcast_finished (s : SimState) (tag : Nat) (v : Value) :
    (broadcast s tag v).finished = s.finished :=
  congrArg (fun p => p.2.1) (frame6_broadcast s tag v)

lemma broadcast_committed (s : SimState) (tag : Nat) (v : Value) :
    (broadcast s tag v).committed = s.committed :=
  congrArg (fun p => p.2.2.1) (frame6_broadcast s tag v)

lemma broadcast_cycle (s : SimState) (tag : Nat) (v : Value) :
    (broadcast s tag v).cycle = s.cycle :=
  congrArg (fun p => p.2.2.2.1) (frame6_broadcast s tag v)

lemma broadcast_instructions (s : SimState) (tag : Nat) (v : Value) :
    (broadcast s tag v).instructions = s.instructions :=
  congrArg (fun p => p.2.2.2.2.1) (frame6_broadcast s tag v)

lemma broadcast_roblen (s : SimState) (tag : Nat) (v : Value) :
    (broadcast s tag v).rob.entries.length = s.rob.entries.length :=
  congrArg (fun p => p.2.2.2.2.2) (frame6_broadcast s tag v)

lemma frame6_wbStep (hashFn : String → Nat) (s : SimState) (i : Nat) :
    frame6 (wbStep hashFn s i) = frame6 s := by
  unfold wbStep
  dsimp only
  split
  · rfl
  · split
    · simp [frame6, setRS]
    · split
      · simp [frame6, robModify, setRS, modifyFirst_length]
      · split
        · simp [frame6, robModify, setRS, modifyFirst_length]
        · split <;>
            simp [frame6, robModify, setRS, modifyFirst_length, broadcast_pc,
                  broadcast_finished, broadcast_committed, broadcast_cycle,
                  broadcast_instructions, broadcast_roblen]

lemma frame6_write_back (hashFn : String → Nat) (s : SimState) :
    frame6 (write_back hashFn s) = frame6 s := by
  unfold write_back
  exact frame6_foldl _ (frame6_wbStep hashFn) _ _

lemma frame6_execute (s : SimState) : frame6 (execute s) = frame6 s := by
  unfold execute
  have hde : ∀ t : SimState, frame6 (decrStep t) = frame6 t := by
    intro t
    unfold decrStep
    refine frame6_foldl _ ?_ _ _
    intro s' tl
    refine frame6_foldl _ ?_ _ _
    intro s'' uf
    cases uf.rs with
    | none => rfl
    | some j =>
        dsimp only
        split
        · split <;> simp [frame6, setRS]
        · rfl
  rw [hde]
  rfl

lemma applyAddr_finished (s : SimState) (a : Option Int) :
    (applyAddr s a).finished = s.finished := by cases a <;> rfl

lemma applyAddr_cycle (s : SimState) (a : Option Int) :
    (applyAddr s a).cycle = s.cycle := by cases a <;> rfl

lemma applyAddr_committed (s : SimState) (a : Option Int) :
    (applyAddr s a).committed = s.committed := by cases a <;> rfl

lemma applyAddr_instructions (s : SimState) (a : Option Int) :
    (applyAddr s a).instructions = s.instructions := by cases a <;> rfl

/-- Issuing one instruction never changes the finished flag, the cycle or
committed counters, or the loaded program. -/
lemma issueInstr_frame {s : SimState} {instr : Instruction} {i : Nat}
    {s' : SimState} (h : issueInstr s instr i = .ok s') :
    s'.finished = s.finished ∧ s'.cycle = s.cycle ∧
    s'.committed = s.committed ∧ s'.instructions = s.instructions := by
  unfold issueInstr at h
  dsimp only at h
  obtain ⟨setup, -, h⟩ := bind_ok_elim h
  try dsimp only at h
  have h' : (Except.ok _ : Py SimState) = .ok s' := h
  injection h' with h'
  subst h'
  exact ⟨applyAddr_finished _ _, applyAddr_cycle _ _,
         applyAddr_committed _ _, applyAddr_instructions _ _⟩

/-- The architectural commit effect changes only the register file or the
memory image. -/
lemma retireEffect_frame {s : SimState} {entry : ROBEntry}
    {instr : Instruction} {s' : SimState}
    (h : retireEffect s entry instr = .ok s') :
    s'.finished = s.finished ∧ s'.pc = s.pc ∧ s'.cycle = s.cycle ∧
    s'.committed = s.committed ∧ s'.instructions = s.instructions ∧
    s'.rob = s.rob := by
  unfold retireEffect at h
  split at h
  · cases hdest : entry.dest with
    | none =>
        simp only [hdest] at h
        have h' : (Except.ok s : Py SimState) = .ok s' := h
        injection h' with h'
        subst h'
        exact ⟨rfl, rfl, rfl, rfl, rfl, rfl⟩
    | some d =>
        simp only [hdest] at h
        by_cases hd : d ≠ ""
        · rw [if_pos hd] at h
          obtain ⟨tag, -, h⟩ := bind_ok_elim h
          by_cases ht : tag = some entry.idx
          · rw [if_pos ht] at h
            obtain ⟨rf, -, h⟩ := bind_ok_elim h
            obtain ⟨rf2, -, h⟩ := bind_ok_elim h
            have h' : (Except.ok { s with register_file := rf2 } : Py SimState) =
                .ok s' := h
            injection h' with h'
            subst h'
            exact ⟨rfl, rfl, rfl, rfl, rfl, rfl⟩
          · rw [if_neg ht] at h
            have h' : (Except.ok s : Py SimState) = .ok s' := h
            injection h' with h'
            subst h'
            exact ⟨rfl, rfl, rfl, rfl, rfl, rfl⟩
        · rw [if_neg hd] at h
          have h' : (Except.ok s : Py SimState) = .ok s' := h
          injection h' with h'
          subst h'
          exact ⟨rfl, rfl, rfl, rfl, rfl, rfl⟩
  · split at h
    · cases haddr : entry.address with
      | none =>
          simp only [haddr] at h
          have h' : (Except.ok s : Py SimState) = .ok s' := h
          injection h' with h'
          subst h'
          exact ⟨rfl, rfl, rfl, rfl, rfl, rfl⟩
      | some addr =>
          cases hsv : entry.store_value with
          | none =>
              simp only [haddr, hsv] at h
              have h' : (Except.ok s : Py SimState) = .ok s' := h
              injection h' with h'
              subst h'
              exact ⟨rfl, rfl, rfl, rfl, rfl, rfl⟩
          | some v =>
              simp only [haddr, hsv] at h
              have h' : (Except.ok { s with memory := s.memory.insert addr v } :
                  Py SimState) = .ok s' := h
              injection h' with h'
              subst h'
              exact ⟨rfl, rfl, rfl, rfl, rfl, rfl⟩
    · have h' : (Except.ok s : Py SimState) = .ok s' := h
      injection h' with h'
      subst h'
      exact ⟨rfl, rfl, rfl, rfl, rfl, rfl⟩

/-- Retiring one head: committed goes up by exactly one, the ROB loses its
head, and the control fields are untouched. -/
lemma retireHead_props {s : SimState} {entry : ROBEntry} {instr : Instruction}
    {s' : SimState} (h : retireHead s entry instr = .ok s') :
    s'.finished = s.finished ∧ s'.pc = s.pc ∧ s'.cycle = s.cycle ∧
    s'.committed = s.committed + 1 ∧ s'.instructions = s.instructions ∧
    s'.rob.entries = s.rob.entries.tail := by
  unfold retireHead at h
  obtain ⟨t, heff, h⟩ := bind_ok_elim h
  obtain ⟨hf, hpc, hcy, hcm, hin, hrob⟩ := retireEffect_frame heff
  dsimp only at h
  have h' : (Except.ok _ : Py SimState) = .ok s' := h
  injection h' with h'
  subst h'
  exact ⟨hf, hpc, hcy, by rw [hcm], hin, by rw [hrob]; rfl⟩

lemma write_back_pc (hashFn : String → Nat) (s : SimState) :
    (write_back hashFn s).pc = s.pc :=
  congrArg (fun p => p.1) (frame6_write_back hashFn s)

lemma write_back_finished (hashFn : String → Nat) (s : SimState) :
    (write_back hashFn s).finished = s.finished :=
  congrArg (fun p => p.2.1) (frame6_write_back hashFn s)

lemma write_back_committed (hashFn : String → Nat) (s : SimState) :
    (write_back hashFn s).committed = s.committed :=
  congrArg (fun p => p.2.2.1) (frame6_write_back hashFn s)

lemma write_back_cycle (hashFn : String → Nat) (s : SimState) :
    (write_back hashFn s).cycle = s.cycle :=
  congrArg (fun p => p.2.2.2.1) (frame6_write_back hashFn s)

lemma write_back_instructions (hashFn : String → Nat) (s : SimState) :
    (write_back hashFn s).instructions = s.instructions :=
  congrArg (fun p => p.2.2.2.2.1) (frame6_write_back hashFn s)

lemma write_back_roblen (hashFn : String → Nat) (s : SimState) :
    (write_back hashFn s).rob.entries.length = s.rob.entries.length :=
  congrArg (fun p => p.2.2.2.2.2) (frame6_write_back hashFn s)

lemma execute_pc (s : SimState) : (execute s).pc = s.pc :=
  congrArg (fun p => p.1) (frame6_execute s)

lemma execute_finished (s : SimState) : (execute s).finished = s.finished :=
  congrArg (fun p => p.2.1) (frame6_execute s)

lemma execute_committed (s : SimState) : (execute s).committed = s.committed :=
  congrArg (fun p => p.2.2.1) (frame6_execute s)

lemma execute_cycle (s : SimState) : (execute s).cycle = s.cycle :=
  congrArg (fun p => p.2.2.2.1) (frame6_execute s)

lemma execute_instructions (s : SimState) :
    (execute s).instructions = s.instructions :=
  congrArg (fun p => p.2.2.2.2.1) (frame6_execute s)

lemma execute_roblen (s : SimState) :
    (execute s).rob.entries.length = s.rob.entries.length :=
  congrArg (fun p => p.2.2.2.2.2) (frame6_execute s)

/-- Main facts about the commit loop: committed is monotone, cycle and the
program are untouched, and `finished` is only ever set together with the
end-of-program condition. -/
lemma commitLoop_main : ∀ (fuel : Nat) {s s' : SimState},
    commitLoop s fuel = .ok s' →
    s.committed ≤ s'.committed ∧ s'.cycle = s.cycle ∧
    s'.instructions = s.instructions ∧
    (s.finished = false → s'.finished = true →
      s'.pc ≥ s'.instructions.length ∧ s'.rob.entries = []) := by
  intro fuel
  induction fuel with
  | zero =>
      intro s s' h
      have h' : (Except.ok s : Py SimState) = .ok s' := h
      injection h' with h'
      subst h'
      exact ⟨le_refl _, rfl, rfl, fun hf htrue => absurd htrue (by simp [hf])⟩
  | succ w ih =>
      intro s s' h
      cases hent : s.rob.entries with
      | nil =>
          simp only [commitLoop, hent] at h
          have h' : (Except.ok s : Py SimState) = .ok s' := h
          injection h' with h'
          subst h'
          exact ⟨le_refl _, rfl, rfl, fun hf htrue => absurd htrue (by simp [hf])⟩
      | cons e rest =>
          simp only [commitLoop, hent] at h
          by_cases hrdy : e.ready = true
          · rw [if_neg (by simp [hrdy])] at h
            cases hmo : (if e.mispredicted = true then e.branch_outcome else none) with
            | none =>
                simp only [hmo] at h
                obtain ⟨t, hret, h⟩ := bind_ok_elim h
                obtain ⟨tf, tpc, tcy, tcm, tin, -⟩ := retireHead_props hret
                by_cases hc : t.pc ≥ t.instructions.length ∧
                    t.rob.entries.length = 0
                · rw [if_pos hc] at h
                  have h' : (Except.ok { t with finished := true } :
                      Py SimState) = .ok s' := h
                  injection h' with h'
                  subst h'
                  refine ⟨by rw [tcm]; omega, tcy, tin, fun _ _ => ?_⟩
                  exact ⟨hc.1, List.length_eq_zero.mp hc.2⟩
                · rw [if_neg hc] at h
                  obtain ⟨g1, g2, g3, g4⟩ := ih h
                  refine ⟨by rw [tcm] at g1; omega, g2.trans tcy, g3.trans tin,
                    fun hf => g4 (by rw [tf]; exact hf)⟩
            | some pr =>
                obtain ⟨taken, tp⟩ := pr
                cases tp with
                | some tpc =>
                    simp only [hmo] at h
                    have h' : (Except.ok (flush_pipeline s _) : Py SimState) =
                        .ok s' := h
                    injection h' with h'
                    subst h'
                    exact ⟨le_refl _, rfl, rfl,
                      fun hf htrue => absurd htrue (by simp [flush_pipeline, hf])⟩
                | none =>
                    simp only [hmo] at h
                    have h' : (Except.ok s : Py SimState) = .ok s' := h
                    injection h' with h'
                    subst h'
                    exact ⟨le_refl _, rfl, rfl,
                      fun hf htrue => absurd htrue (by simp [hf])⟩
          · rw [if_pos (by simp [hrdy])] at h
            have h' : (Except.ok s : Py SimState) = .ok s' := h
            injection h' with h'
            subst h'
            exact ⟨le_refl _, rfl, rfl, fun hf htrue => absurd htrue (by simp [hf])⟩

/-- The dispatch loop never touches finished, cycle, committed or the
program. -/
lemma dispatchLoop_frame : ∀ (fuel : Nat) {s s' : SimState},
    dispatchLoop s fuel = .ok s' →
    s'.finished = s.finished ∧ s'.cycle = s.cycle ∧
    s'.committed = s.committed ∧ s'.instructions = s.instructions := by
  intro fuel
  induction fuel with
  | zero =>
      intro s s' h
      have h' : (Except.ok s : Py SimState) = .ok s' := h
      injection h' with h'
      subst h'
      exact ⟨rfl, rfl, rfl, rfl⟩
  | succ w ih =>
      intro s s' h
      cases hpc : s.instructions.get? s.pc with
      | none =>
          simp only [dispatchLoop, hpc] at h
          have h' : (Except.ok s : Py SimState) = .ok s' := h
          injection h' with h'
          subst h'
          exact ⟨rfl, rfl, rfl, rfl⟩
      | some instr =>
          simp only [dispatchLoop, hpc] at h
          by_cases hhlt : instr.opcode = some "HLT"
          · rw [if_pos hhlt] at h
            have h' : (Except.ok { s with halted := true } : Py SimState) =
                .ok s' := h
            injection h' with h'
            subst h'
            exact ⟨rfl, rfl, rfl, rfl⟩
          · rw [if_neg hhlt] at h
            cases hrs : find_free_rs s instr with
            | none =>
                simp only [hrs] at h
                have h' : (Except.ok { s with stalls := s.stalls + 1 } :
                    Py SimState) = .ok s' := h
                injection h' with h'
                subst h'
                exact ⟨rfl, rfl, rfl, rfl⟩
            | some i =>
                simp only [hrs] at h
                by_cases hfull : s.rob.is_full = true
                · rw [if_pos hfull] at h
                  have h' : (Except.ok { s with stalls := s.stalls + 1 } :
                      Py SimState) = .ok s' := h
                  injection h' with h'
                  subst h'
                  exact ⟨rfl, rfl, rfl, rfl⟩
                · rw [if_neg hfull] at h
                  obtain ⟨t, hiss, h⟩ := bind_ok_elim h
                  obtain ⟨f1, f2, f3, f4⟩ := issueInstr_frame hiss
                  obtain ⟨g1, g2, g3, g4⟩ := ih h
                  exact ⟨g1.trans f1, g2.trans f2, g3.trans f3, g4.trans f4⟩

lemma dispatch_frame {s s' : SimState} (h : dispatch s = .ok s') :
    s'.finished = s.finished ∧ s'.cycle = s.cycle ∧
    s'.committed = s.committed ∧ s'.instructions = s.instructions := by
  unfold dispatch at h
  by_cases hh : s.halted = true
  · rw [if_pos hh] at h
    have h' : (Except.ok s : Py SimState) = .ok s' := h
    injection h' with h'
    subst h'
    exact ⟨rfl, rfl, rfl, rfl⟩
  · rw [if_neg hh] at h
    exact dispatchLoop_frame _ h

/-- With the PC past the last instruction, dispatch has nothing to issue. -/
lemma dispatchLoop_at_end {s : SimState}
    (hpc : s.pc ≥ s.instructions.length) :
    ∀ fuel, dispatchLoop s fuel = .ok s := by
  intro fuel
  cases fuel with
  | zero => rfl
  | succ w =>
      have hnone : s.instructions.get? s.pc = none := by
        rw [List.get?_eq_none]
        exact hpc
      simp only [dispatchLoop, hnone]

/-- Decompose one non-finished `step` into its four stages. -/
lemma step_parts {hashFn : String → Nat} {s s' : SimState}
    (hf : s.finished = false) (h : step hashFn s = .ok s') :
    ∃ c, commit { s with cycle := s.cycle + 1 } = .ok c ∧
      dispatch (execute (write_back hashFn c)) = .ok s' := by
  unfold step at h
  rw [if_neg (by rw [hf]; exact Bool.false_ne_true)] at h
  obtain ⟨c, hc, h⟩ := bind_ok_elim h
  exact ⟨c, hc, h⟩

lemma load_instructions_finished {s : SimState} {lines : List String}
    {s0 : SimState} (h : load_instructions s lines = .ok s0) :
    s0.finished = false := by
  unfold load_instructions at h
  obtain ⟨acc, -, h⟩ := bind_ok_elim h
  have h' : (Except.ok _ : Py SimState) = .ok s0 := h
  injection h' with h'
  rw [← h']
  rfl

/-- One `step` preserves the invariant “finished implies the PC is past the
last instruction and the ROB is empty”. -/
lemma step_preserves_end_inv {hashFn : String → Nat} {s s' : SimState}
    (hinv : s.finished = true → s.pc ≥ s.instructions.length ∧
      s.rob.entries = [])
    (h : step hashFn s = .ok s') :
    s'.finished = true → s'.pc ≥ s'.instructions.length ∧
      s'.rob.entries = [] := by
  intro hfin'
  by_cases hf : s.finished = true
  · rw [step_of_finished hashFn hf] at h
    have h' : (Except.ok s : Py SimState) = .ok s' := h
    injection h' with h'
    subst h'
    exact hinv hf
  · have hf' : s.finished = false := by simpa using hf
    obtain ⟨c, hc, hd⟩ := step_parts hf' h
    unfold commit at hc
    obtain ⟨-, -, -, himpl⟩ := commitLoop_main _ hc
    obtain ⟨d1, -, -, -⟩ := dispatch_frame hd
    have hcf : c.finished = true := by
      rw [d1, execute_finished, write_back_finished] at hfin'
      exact hfin'
    have hcond := himpl hf' hcf
    have ht_pc : (execute (write_back hashFn c)).pc = c.pc := by
      rw [execute_pc, write_back_pc]
    have ht_in : (execute (write_back hashFn c)).instructions =
        c.instructions := by
      rw [execute_instructions, write_back_instructions]
    have ht_len : (execute (write_back hashFn c)).rob.entries.length = 0 := by
      rw [execute_roblen, write_back_roblen, hcond.2]
      rfl
    have ht_cond : (execute (write_back hashFn c)).pc ≥
        (execute (write_back hashFn c)).instructions.length := by
      rw [ht_pc, ht_in]
      exact hcond.1
    unfold dispatch at hd
    by_cases hh : (execute (write_back hashFn c)).halted = true
    · rw [if_pos hh] at hd
      have h' : (Except.ok _ : Py SimState) = .ok s' := hd
      injection h' with h'
      rw [← h']
      exact ⟨ht_cond, by rwa [← List.length_eq_zero]⟩
    · rw [if_neg hh, dispatchLoop_at_end ht_cond] at hd
      have h' : (Except.ok _ : Py SimState) = .ok s' := hd
      injection h' with h'
      rw [← h']
      exact ⟨ht_cond, by rwa [← List.length_eq_zero]⟩

lemma runSteps_preserves_end_inv (hashFn : String → Nat) :
    ∀ (n : Nat) {s s' : SimState},
    runSteps hashFn n s = .ok s' →
    (s.finished = true → s.pc ≥ s.instructions.length ∧ s.rob.entries = []) →
    (s'.finished = true → s'.pc ≥ s'.instructions.length ∧
      s'.rob.entries = []) := by
  intro n
  induction n with
  | zero =>
      intro s s' h hinv
      have h' : (Except.ok s : Py SimState) = .ok s' := h
      injection h' with h'
      subst h'
      exact hinv
  | succ m ih =>
      intro s s' h hinv
      rw [runSteps] at h
      obtain ⟨t, hstep, h⟩ := bind_ok_elim h
      exact ih h (step_preserves_end_inv hinv hstep)

/-- C5 (counterexample): for the empty program, after one step the PC is past
the last instruction and the ROB is empty, yet `finished` is still false —
`finished` is only set after a retirement inside commit. -/
theorem claim5_empty_program_never_finishes :
    ∃ s, runProg ([] : List String) 1 = .ok s ∧
      s.pc ≥ s.instructions.length ∧ s.rob.entries = [] ∧
      s.finished = false := by
  have hfacts : (runProg ([] : List String) 1).map (fun s => decide
      (s.pc ≥ s.instructions.length ∧ s.rob.entries = [] ∧
       s.finished = false)) = .ok true := by decide
  cases hrun : runProg ([] : List String) 1 with
  | error e => rw [hrun] at hfacts; simp [Except.map] at hfacts
  | ok s =>
      rw [hrun] at hfacts
      simp only [Except.map] at hfacts
      injection hfacts with h
      obtain ⟨h1, h2, h3⟩ := of_decide_eq_true h
      exact ⟨s, rfl, h1, h2, h3⟩

/-- C5 (amended): in every run (any program, any number of steps from a
loaded state), when the `finished` flag is set the PC has passed the last
instruction and the ROB is empty.  The converse direction of the original
claim is false (see the counterexample): the end condition may hold with
`finished` still unset, because `finished` is only assigned after a
retirement in commit. -/
theorem claim5_finished_implies_end :
    ∀ (hashFn : String → Nat) (lines : List String) (s0 : SimState) (n : Nat)
      (s : SimState),
    load_instructions initSim lines = .ok s0 →
    runSteps hashFn n s0 = .ok s →
    s.finished = true →
    s.pc ≥ s.instructions.length ∧ s.rob.entries = [] := by
  intro hashFn lines s0 n s hload hrun hfin
  refine runSteps_preserves_end_inv hashFn n hrun ?_ hfin
  intro h0
  rw [load_instructions_finished hload] at h0
  cases h0

/-- C5 witness: the invariant applied to the one-instruction program with no
HLT, which does reach `finished`. -/
theorem claim5_finished_implies_end_witness :
    ∃ s0 s, load_instructions initSim progNoHlt = .ok s0 ∧
      runSteps hash0 6 s0 = .ok s ∧ s.finished = true ∧
      s.pc ≥ s.instructions.length ∧ s.rob.entries = [] := by
  have hfacts : (load_instructions initSim progNoHlt).map
      (fun t => decide True) = .ok true := by decide
  cases hload : load_instructions initSim progNoHlt with
  | error e => rw [hload] at hfacts; simp [Except.map] at hfacts
  | ok s0 =>
      have hfin : (runSteps hash0 6 s0).map (fun t => t.finished) = .ok true := by
        have : runProg progNoHlt 6 = load_instructions initSim progNoHlt >>=
            runSteps hash0 6 := rfl
        have hdec : (runProg progNoHlt 6).map (fun t => t.finished) =
            .ok true := by decide
        rw [this, hload] at hdec
        exact hdec
      cases hrun : runSteps hash0 6 s0 with
      | error e => rw [hrun] at hfin; simp [Except.map] at hfin
      | ok s =>
          rw [hrun] at hfin
          simp only [Except.map] at hfin
          injection hfin with hfin
          obtain ⟨h1, h2⟩ := claim5_finished_implies_end hash0 progNoHlt s0 6 s
            hload hrun hfin
          exact ⟨s0, s, rfl, hrun, hfin, h1, h2⟩

/-- C7 (amended): across every `step` call the committed counter is
non-decreasing; a step on a finished state is a strict no-op (in particular
the cycle counter is unchanged); a step on a non-finished state increments
the cycle counter by exactly one. -/
theorem claim7_step_counters :
    ∀ (hashFn : String → Nat) (s s' : SimState), step hashFn s = .ok s' →
      s.committed ≤ s'.committed ∧
      (s.finished = true → s' = s) ∧
      (s.finished = false → s'.cycle = s.cycle + 1) := by
  intro hashFn s s' h
  by_cases hf : s.finished = true
  · rw [step_of_finished hashFn hf] at h
    have h' : (Except.ok s : Py SimState) = .ok s' := h
    injection h' with h'
    subst h'
    exact ⟨le_refl _, fun _ => rfl, fun hff => absurd hf (by simp [hff])⟩
  · have hf' : s.finished = false := by simpa using hf
    obtain ⟨c, hc, hd⟩ := step_parts hf' h
    unfold commit at hc
    obtain ⟨h1, h2, -, -⟩ := commitLoop_main _ hc
    obtain ⟨-, d2, d3, -⟩ := dispatch_frame hd
    constructor
    · calc s.committed ≤ c.committed := h1
        _ = (write_back hashFn c).committed := (write_back_committed _ _).symm
        _ = (execute (write_back hashFn c)).committed :=
            (execute_committed _).symm
        _ = s'.committed := d3.symm
    · refine ⟨fun hff => absurd hff (by simp [hf']), fun _ => ?_⟩
      calc s'.cycle = (execute (write_back hashFn c)).cycle := d2
        _ = (write_back hashFn c).cycle := execute_cycle _
        _ = c.cycle := write_back_cycle _ _
        _ = s.cycle + 1 := h2

/-- C7 (counterexample): a program with no HLT reaches `finished`; stepping
that finished state returns it unchanged, so the cycle counter does NOT
strictly increase on every `step` call. -/
theorem claim7_finished_step_is_noop :
    ∃ s, runProg progNoHlt 6 = .ok s ∧ s.finished = true ∧
      step hash0 s = .ok s ∧ s.cycle = 4 := by
  have hfacts : (runProg progNoHlt 6).map (fun s => decide
      (s.finished = true ∧ s.cycle = 4)) = .ok true := by decide
  cases hrun : runProg progNoHlt 6 with
  | error e => rw [hrun] at hfacts; simp [Except.map] at hfacts
  | ok s =>
      rw [hrun] at hfacts
      simp only [Except.map] at hfacts
      injection hfacts with h
      obtain ⟨h1, h2⟩ := of_decide_eq_true h
      exact ⟨s, rfl, h1, step_of_finished hash0 h1, h2⟩

/-- C7 witness: the step-counter facts applied to the freshly loaded
ADDI-chain state (not finished, so its first step goes to cycle 1). -/
theorem claim7_step_counters_witness :
    ∃ s0, load_instructions initSim progChain = .ok s0 ∧
      ∃ s', step hash0 s0 = .ok s' ∧ s0.committed ≤ s'.committed ∧
        s'.cycle = s0.cycle + 1 := by
  cases hload : load_instructions initSim progChain with
  | error e =>
      have : (load_instructions initSim progChain).isOk = true := by decide
      rw [hload] at this
      simp [Except.isOk, Except.toBool] at this
  | ok s0 =>
      have hstep : (load_instructions initSim progChain >>= step hash0).isOk =
          true := by decide
      rw [hload] at hstep
      cases hrun : step hash0 s0 with
      | error e =>
          rw [show (Except.ok s0 >>= step hash0 : Py SimState) =
            step hash0 s0 from rfl, hrun] at hstep
          simp [Except.isOk, Except.toBool] at hstep
      | ok s' =>
          have hnf : s0.finished = false := load_instructions_finished hload
          obtain ⟨hm, -, hcy⟩ := claim7_step_counters hash0 s0 s' hrun
          exact ⟨s0, rfl, s', hrun, hm, hcy hnf⟩

/-- C9 witness: the `ValueError` rule at the name `X1` and the
`set`-extends-the-bank rule at `R32`, on the reference register file. -/
theorem claim9_invalid_register_witness :
    RegisterFile.init.get "X1" =
      .error (.valueError ("Registro invalido: " ++ "X1")) ∧
    ∃ rf', RegisterFile.init.set "R32" (some 5) = .ok rf' ∧
      rf'.int_regs.find? "R32" = some (some 5) :=
  ⟨(claim9_invalid_register.1 RegisterFile.init "X1" none none
      (by decide) (by decide)).1,
   (claim9_invalid_register.2 RegisterFile.init "R32" (some 5)
      (by decide) (by decide)).2⟩

end Tomasulo
